import Mathlib

/-!
Shallow embedding of `src/basic_regression/python/nhanes_ols.py`, an
instructional script that loads the NHANES 2015-2016 merged CSV, fits a
sequence of linear models for systolic blood pressure, and draws
diagnostic plots.  Dataframes are modelled row-wise with explicit missing
values, the numeric cells as exact rationals; the script's top-level
statements are modelled as a list of operations with an exception-passing
semantics, and the library statistics (mean, sample variance, z-scores,
centering) are translated directly from the pandas expressions used in
the source.
-/

namespace NhanesOls

/-- A pandas dataframe cell: a number, a string label, or missing (NaN). -/
inductive Value where
  | num (q : ℚ)
  | str (s : String)
  | na
deriving DecidableEq

/-- A dataframe row: an association list from column names to cells. -/
abbrev Row := List (String × Value)

/-- A dataframe: a list of rows (row-wise model of a pandas DataFrame). -/
abbrev DataFrame := List Row

/-- Look up column `c` in a row (first matching entry). -/
def lookupCol (c : String) (r : Row) : Option Value :=
  (r.find? (fun p => p.1 == c)).map (fun p => p.2)

/-- `da[cols]` on one row: keep the named columns, in the given order. -/
def selectRow (cols : List String) (r : Row) : Row :=
  cols.filterMap (fun c => (lookupCol c r).map (fun v => (c, v)))

/-- `da[cols]`: column selection (source line 112). -/
def selectCols (cols : List String) (df : DataFrame) : DataFrame :=
  df.map (selectRow cols)

/-- `.dropna()`: drop every row containing a missing value (source line 112). -/
def dropna (df : DataFrame) : DataFrame :=
  df.filter (fun r => r.all (fun p => p.2 != Value.na))

/-- The dataframe has column `c` in every row. -/
def hasCol (c : String) (df : DataFrame) : Bool :=
  df.all (fun r => (lookupCol c r).isSome)

/-- `da[c] = f(row)`: add a derived column computed from each row. -/
def addCol (c : String) (f : Row → Value) (df : DataFrame) : DataFrame :=
  df.map (fun r => r ++ [(c, f r)])

/-- `del da[c]`: delete a column (source line 639). -/
def delCol (c : String) (df : DataFrame) : DataFrame :=
  df.map (fun r => r.filter (fun p => p.1 != c))

/-- Numeric payload of a cell, if any. -/
def toNum : Value → Option ℚ
  | .num q => some q
  | _ => none

/-- Is the cell a string label? -/
def isStr : Value → Bool
  | .str _ => true
  | _ => false

/-- All cells of column `c` (in row order). -/
def colVals (c : String) (df : DataFrame) : List Value :=
  df.filterMap (lookupCol c)

/-- The numeric entries of column `c` (pandas statistics skip NaN). -/
def colNums (c : String) (df : DataFrame) : List ℚ :=
  (colVals c df).filterMap toNum

/-- `Series.mean()`: the sample mean (sum over count). -/
def mean (xs : List ℚ) : ℚ := xs.sum / xs.length

/-- The sample variance with denominator `n - 1`, the square of
`Series.std()` (pandas uses `ddof=1`); the standard deviation itself is
its nonnegative square root and is characterised by that equation. -/
def svar (xs : List ℚ) : ℚ :=
  (xs.map (fun x => (x - mean xs) ^ 2)).sum / ((xs.length : ℚ) - 1)

/-- `(da.RIDAGEYR - da.RIDAGEYR.mean()) / da.RIDAGEYR.std()` on a plain
list of numbers, with `s` the value of `Series.std()` (source line 612). -/
def zCol (xs : List ℚ) (s : ℚ) : List ℚ :=
  xs.map (fun x => (x - mean xs) / s)

/-- `da.RIDAGEYR - da.RIDAGEYR.mean()` on a plain list of numbers
(source line 686). -/
def cenCol (xs : List ℚ) : List ℚ :=
  xs.map (fun x => x - mean xs)

/-- `da.RIAGENDR.replace({1: "Male", 2: "Female"})` on one row (source
line 261): 1 and 2 are relabelled, any other value is kept, missing
stays missing. -/
def genderRepl (r : Row) : Value :=
  match lookupCol "RIAGENDR" r with
  | some (.num q) =>
      if q = 1 then .str "Male" else if q = 2 then .str "Female" else .num q
  | some v => v
  | none => .na

/-- The z-scored age cell for one row, `m` and `s` being the column mean
and standard deviation (source line 612). -/
def zRowFun (m s : ℚ) (r : Row) : Value :=
  match lookupCol "RIDAGEYR" r with
  | some (.num q) => .num ((q - m) / s)
  | _ => .na

/-- The centered age cell for one row, `m` being the column mean
(source line 686). -/
def cenRowFun (m : ℚ) (r : Row) : Value :=
  match lookupCol "RIDAGEYR" r with
  | some (.num q) => .num (q - m)
  | _ => .na

/-! ### Model formulas

The patsy formula strings of the source, in structured form: a left-hand
side column and a list of right-hand-side terms. -/

/-- One right-hand-side term of a formula: a plain covariate, a power
term `I(x**k)`, a spline basis `bs(x, k)`, or an interaction `a*b`. -/
inductive Term where
  | varT (n : String)
  | powT (n : String) (k : ℕ)
  | bsT (n : String) (k : ℕ)
  | interT (a b : String)
deriving DecidableEq

/-- A model formula `lhs ~ t₁ + ⋯ + tₖ`. -/
structure Formula where
  lhs : String
  terms : List Term
deriving DecidableEq

/-- The dataframe columns a term refers to. -/
def Term.colsOf : Term → List String
  | .varT n => [n]
  | .powT n _ => [n]
  | .bsT n _ => [n]
  | .interT a b => [a, b]

/-- Number of design-matrix columns the term expands to: one for a
covariate or a power term, `k` for a `k`-column spline basis, and three
for an interaction `a*b` (the two main effects plus the product). -/
def Term.ncols : Term → ℕ
  | .varT _ => 1
  | .powT _ _ => 1
  | .bsT _ k => k
  | .interT _ _ => 3

/-- Model complexity: the number of fitted parameters, i.e. the
intercept plus the design-matrix columns of all terms. -/
def complexity (f : Formula) : ℕ :=
  1 + (f.terms.map Term.ncols).sum

/-- Every column name a formula refers to (outcome first). -/
def Formula.allCols (f : Formula) : List String :=
  f.lhs :: f.terms.flatMap Term.colsOf

/-- Estimation entry point used for a fit: `sm.OLS.from_formula` or
`sm.GLM.from_formula` (the latter with its default Gaussian family). -/
inductive Method
  | ols
  | glm
deriving DecidableEq

/-- `"BPXSY1 ~ RIDAGEYR"` (source line 178). -/
def f1 : Formula := ⟨"BPXSY1", [.varT "RIDAGEYR"]⟩

/-- `"BPXSY1 ~ RIDAGEYR + RIAGENDRx"` (source line 265). -/
def f2 : Formula := ⟨"BPXSY1", [.varT "RIDAGEYR", .varT "RIAGENDRx"]⟩

/-- `"BPXSY1 ~ RIDAGEYR + BMXBMI + RIAGENDRx"` (source lines 366, 558, 580). -/
def f3 : Formula :=
  ⟨"BPXSY1", [.varT "RIDAGEYR", .varT "BMXBMI", .varT "RIAGENDRx"]⟩

/-- `"BPXSY1 ~ RIDAGEYR_z + I(RIDAGEYR_z**2) + RIAGENDRx"` (source line 613). -/
def fz : Formula :=
  ⟨"BPXSY1", [.varT "RIDAGEYR_z", .powT "RIDAGEYR_z" 2, .varT "RIAGENDRx"]⟩

/-- `"BPXSY1 ~ bs(RIDAGEYR, 5) + BMXBMI + RIAGENDRx"` (source line 631). -/
def fbs : Formula :=
  ⟨"BPXSY1", [.bsT "RIDAGEYR" 5, .varT "BMXBMI", .varT "RIAGENDRx"]⟩

/-- `"BPXSY1 ~ RIDAGEYR_cen*RIAGENDRx + BMXBMI"` (source line 687). -/
def fint : Formula :=
  ⟨"BPXSY1", [.interT "RIDAGEYR_cen" "RIAGENDRx", .varT "BMXBMI"]⟩

/-! ### The script as a list of top-level operations -/

/-- Observable effects of one top-level statement: an external read, a
model fit receiving a dataframe, a rendered figure, printed output, or a
write to external storage. -/
inductive Event where
  | readEv (u : String)
  | fitEv (m : Method) (f : Formula) (d : DataFrame)
  | plotEv
  | printEv
  | writeEv (p : String)
deriving DecidableEq

/-- The default library exceptions: a failed read, a missing column or
key, or a type error from arithmetic on non-numeric data. -/
inductive LibErr
  | readError
  | keyError (c : String)
  | typeError
deriving DecidableEq

/-- Interpreter state: the dataframe `da`, the `values` dictionary, and
the external file system (a store the script never touches). -/
structure Env where
  da : DataFrame
  vals : List (String × Value)
  fs : List (String × String)
deriving DecidableEq

/-- The outside world: what each URL resolves to, if anything. -/
def World := String → Option DataFrame

/-- Replace the dataframe of a state. -/
def setDa (env : Env) (d : DataFrame) : Env := { env with da := d }

/-- Update a key in an association list (insert if absent). -/
def setA (k : String) (v : Value) (l : List (String × Value)) :
    List (String × Value) :=
  if l.any (fun p => p.1 == k) then
    l.map (fun p => if p.1 == k then (k, v) else p)
  else l ++ [(k, v)]

/-- Look up a key in an association list. -/
def getA (k : String) (l : List (String × Value)) : Option Value :=
  (l.find? (fun p => p.1 == k)).map (fun p => p.2)

/-- One top-level statement of the script.  The constructors after
`plotOp` (`writeFile`, `defFun`, `ifStmt`, `tryExcept`) never occur in
the program below; they are included so that the absence of writes,
locally defined functions, branching and exception handlers is a
statement about this program rather than about the language. -/
inductive Op where
  | importLib (lib : String)
  | readCsv (u : String)
  | selectDropna (cols : List String)
  | fitModel (m : Method) (f : Formula)
  | summaryOp
  | stdCol (c : String)
  | corrCols (cols : List String)
  | corrFitted
  | printOp
  | addGenderCol
  | addZCol
  | addCenCol
  | delZCol
  | assignVals (kvs : List (String × Value))
  | setVal (k : String) (v : Value)
  | delVal (k : String)
  | predictPlot (focus : String)
  | plotOp
  | writeFile (path content : String)
  | defFun (n : String)
  | ifStmt (b : Env → Bool) (t e : Op)
  | tryExcept (body handler : Op)

/-- Semantics of one statement: the next state or a library exception,
together with the emitted events.  Exceptions are the library defaults:
`readCsv` fails on an unresolvable URL, column selection and model
fitting fail on a missing column, `del` fails on a missing key, and the
age arithmetic fails on string data. -/
def execOp (sa : ℚ → ℚ) (w : World) : Op → Env → Except LibErr Env × List Event
  | .importLib _, env => (.ok env, [])
  | .readCsv u, env =>
      match w u with
      | some d => (.ok (setDa env d), [.readEv u])
      | none => (.error .readError, [.readEv u])
  | .selectDropna cols, env =>
      match cols.find? (fun c => !hasCol c env.da) with
      | some c => (.error (.keyError c), [])
      | none => (.ok (setDa env (dropna (selectCols cols env.da))), [])
  | .fitModel m f, env =>
      match f.allCols.find? (fun c => !hasCol c env.da) with
      | some c => (.error (.keyError c), [])
      | none => (.ok env, [.fitEv m f env.da])
  | .summaryOp, env => (.ok env, [.printEv])
  | .stdCol _, env => (.ok env, [.printEv])
  | .corrCols _, env => (.ok env, [.printEv])
  | .corrFitted, env => (.ok env, [])
  | .printOp, env => (.ok env, [.printEv])
  | .addGenderCol, env =>
      if hasCol "RIAGENDR" env.da then
        (.ok (setDa env (addCol "RIAGENDRx" genderRepl env.da)), [])
      else (.error (.keyError "RIAGENDR"), [])
  | .addZCol, env =>
      if hasCol "RIDAGEYR" env.da then
        if (colVals "RIDAGEYR" env.da).any isStr then (.error .typeError, [])
        else
          (.ok (setDa env (addCol "RIDAGEYR_z"
            (zRowFun (mean (colNums "RIDAGEYR" env.da))
              (sa (svar (colNums "RIDAGEYR" env.da)))) env.da)), [])
      else (.error (.keyError "RIDAGEYR"), [])
  | .addCenCol, env =>
      if hasCol "RIDAGEYR" env.da then
        if (colVals "RIDAGEYR" env.da).any isStr then (.error .typeError, [])
        else
          (.ok (setDa env (addCol "RIDAGEYR_cen"
            (cenRowFun (mean (colNums "RIDAGEYR" env.da))) env.da)), [])
      else (.error (.keyError "RIDAGEYR"), [])
  | .delZCol, env =>
      if hasCol "RIDAGEYR_z" env.da then
        (.ok (setDa env (delCol "RIDAGEYR_z" env.da)), [])
      else (.error (.keyError "RIDAGEYR_z"), [])
  | .assignVals kvs, env => (.ok { env with vals := kvs }, [])
  | .setVal k v, env => (.ok { env with vals := setA k v env.vals }, [])
  | .delVal k, env =>
      match getA k env.vals with
      | some _ =>
          (.ok { env with vals := env.vals.filter (fun p => p.1 != k) }, [])
      | none => (.error (.keyError k), [])
  | .predictPlot _, env => (.ok env, [.plotEv])
  | .plotOp, env => (.ok env, [.plotEv])
  | .writeFile p s, env =>
      (.ok { env with fs := env.fs ++ [(p, s)] }, [.writeEv p])
  | .defFun _, env => (.ok env, [])
  | .ifStmt b t e, env =>
      if b env then execOp sa w t env else execOp sa w e env
  | .tryExcept body handler, env =>
      match execOp sa w body env with
      | (.error _, t1) =>
          match execOp sa w handler env with
          | (r, t2) => (r, t1 ++ t2)
      | (.ok e', t1) => (.ok e', t1)

/-- Run a statement list in order; an uncaught exception aborts the run
and is returned unchanged, along with the events emitted so far. -/
def runOps (sa : ℚ → ℚ) (w : World) :
    List Op → Env → Except LibErr Env × List Event
  | [], env => (.ok env, [])
  | op :: rest, env =>
      match execOp sa w op env with
      | (.error e, t) => (.error e, t)
      | (.ok env', t) =>
          match runOps sa w rest env' with
          | (r, t') => (r, t ++ t')

/-- The hard-coded NHANES 2015-2016 merged CSV URL (source line 107). -/
def nhanesUrl : String :=
  "https://raw.githubusercontent.com/kshedden/statswpy/master/NHANES/merged/nhanes_2015_2016.csv"

/-- The key variables kept up front (source line 111). -/
def vars : List String :=
  ["BPXSY1", "RIDAGEYR", "RIAGENDR", "RIDRETH1", "DMDEDUC2", "BMXBMI", "SMQ020"]

/-- The reference values fixed for `predict_functional` (source lines
417-418 and 640-641). -/
def values0 : List (String × Value) :=
  [("RIAGENDRx", .str "Female"), ("RIAGENDR", .num 2), ("BMXBMI", .num 25),
   ("DMDEDUC2", .num 1), ("RIDRETH1", .num 1), ("SMQ020", .num 1)]

set_option maxHeartbeats 1600000 in
/-- The whole script as a statement list, one entry per top-level source
statement (source line numbers in the comments). -/
def program : List Op :=
  [ .importLib "matplotlib.pyplot",                -- 92
    .importLib "seaborn",                          -- 93
    .importLib "pandas",                           -- 94
    .importLib "statsmodels.api",                  -- 95
    .importLib "numpy",                            -- 96
    .readCsv nhanesUrl,                            -- 107-108
    .selectDropna vars,                            -- 111-112
    .fitModel .ols f1,                             -- 178-179
    .summaryOp,                                    -- 180
    .stdCol "BPXSY1",                              -- 204
    .corrCols ["BPXSY1", "RIDAGEYR"],              -- 227
    .printOp,                                      -- 228
    .corrFitted,                                   -- 240
    .printOp,                                      -- 241
    .addGenderCol,                                 -- 261
    .fitModel .ols f2,                             -- 265-266
    .summaryOp,                                    -- 267
    .corrCols ["RIDAGEYR", "RIAGENDR"],            -- 306
    .corrFitted,                                   -- 317
    .printOp,                                      -- 318
    .fitModel .ols f3,                             -- 366-367
    .summaryOp,                                    -- 368
    .corrCols ["RIDAGEYR", "RIAGENDR", "BMXBMI"],  -- 378
    .importLib "statsmodels.sandbox.predict_functional", -- 412
    .assignVals values0,                           -- 417-418
    .predictPlot "RIDAGEYR",                       -- 420-421
    .plotOp,                                       -- 423
    .plotOp,                                       -- 424
    .plotOp,                                       -- 425
    .plotOp,                                       -- 426
    .delVal "BMXBMI",                              -- 432
    .setVal "RIDAGEYR" (.num 50),                  -- 433
    .predictPlot "BMXBMI",                         -- 434-435
    .plotOp,                                       -- 437
    .plotOp,                                       -- 438
    .plotOp,                                       -- 439
    .plotOp,                                       -- 440
    .plotOp,                                       -- 486
    .plotOp,                                       -- 487
    .plotOp,                                       -- 488
    .importLib "statsmodels.graphics.regressionplots", -- 512
    .plotOp,                                       -- 514
    .plotOp,                                       -- 515
    .plotOp,                                       -- 516
    .plotOp,                                       -- 517
    .plotOp,                                       -- 527
    .plotOp,                                       -- 528
    .plotOp,                                       -- 529
    .plotOp,                                       -- 530
    .importLib "statsmodels.graphics.regressionplots", -- 556
    .fitModel .glm f3,                             -- 558-559
    .plotOp,                                       -- 561
    .plotOp,                                       -- 562
    .plotOp,                                       -- 563
    .importLib "statsmodels.graphics.regressionplots", -- 578
    .fitModel .glm f3,                             -- 580-581
    .plotOp,                                       -- 583
    .plotOp,                                       -- 584
    .plotOp,                                       -- 585
    .addZCol,                                      -- 612
    .fitModel .ols fz,                             -- 613-614
    .summaryOp,                                    -- 615
    .fitModel .ols fbs,                            -- 631-632
    .summaryOp,                                    -- 633
    .delZCol,                                      -- 639
    .assignVals values0,                           -- 640-641
    .predictPlot "RIDAGEYR",                       -- 643-644
    .plotOp,                                       -- 646
    .plotOp,                                       -- 647
    .plotOp,                                       -- 648
    .plotOp,                                       -- 649
    .addCenCol,                                    -- 686
    .fitModel .ols fint,                           -- 687-688
    .summaryOp,                                    -- 689
    .setVal "RIAGENDRx" (.str "Female"),           -- 697
    .setVal "RIDAGEYR" .na,                        -- 698
    .predictPlot "RIDAGEYR_cen",                   -- 699-700
    .plotOp,                                       -- 701
    .setVal "RIAGENDRx" (.str "Male"),             -- 703
    .predictPlot "RIDAGEYR_cen",                   -- 704-705
    .plotOp,                                       -- 706
    .plotOp,                                       -- 708
    .plotOp ]                                      -- 709

/-! ### Syntactic classifications of statements -/

/-- Fits performed by one statement. -/
def fitsOfOp : Op → List (Method × Formula)
  | .fitModel m f => [(m, f)]
  | .ifStmt _ t e => fitsOfOp t ++ fitsOfOp e
  | .tryExcept b h => fitsOfOp b ++ fitsOfOp h
  | _ => []

/-- All model fits of the script, in program order. -/
def modelFits : List (Method × Formula) := program.flatMap fitsOfOp

/-- URLs a statement can read from. -/
def urlsOf : Op → List String
  | .readCsv u => [u]
  | .ifStmt _ t e => urlsOf t ++ urlsOf e
  | .tryExcept b h => urlsOf b ++ urlsOf h
  | _ => []

/-- Paths a statement can write to. -/
def writesOf : Op → List String
  | .writeFile p _ => [p]
  | .ifStmt _ t e => writesOf t ++ writesOf e
  | .tryExcept b h => writesOf b ++ writesOf h
  | _ => []

/-- The statement contains no exception handler. -/
def noTryB : Op → Bool
  | .tryExcept _ _ => false
  | .ifStmt _ t e => noTryB t && noTryB e
  | _ => true

/-- The statement is straight-line: no branching, no exception handler,
no locally defined function. -/
def straightLineB : Op → Bool
  | .ifStmt _ _ _ => false
  | .tryExcept _ _ => false
  | .defFun _ => false
  | _ => true

/-- The statement is one of the behaviours the script consists of:
loading the CSV, selecting and cleaning columns, fitting a model,
printing summaries and correlations, deriving or deleting a column,
bookkeeping for the plotting helper, or drawing a plot. -/
def topBehaviorB : Op → Bool
  | .writeFile _ _ => false
  | .defFun _ => false
  | .ifStmt _ _ _ => false
  | .tryExcept _ _ => false
  | _ => true

/-! ### The dataframe stages of a successful run -/

/-- The dataframe after up-front selection and `dropna` (line 112). -/
def df0 (csv : DataFrame) : DataFrame := dropna (selectCols vars csv)

/-- The dataframe after the gender relabelling (line 261). -/
def d1 (csv : DataFrame) : DataFrame := addCol "RIAGENDRx" genderRepl (df0 csv)

/-- The age column mean used for the z-score (line 612). -/
def ageM1 (csv : DataFrame) : ℚ := mean (colNums "RIDAGEYR" (d1 csv))

/-- The age column standard deviation used for the z-score (line 612),
`sa` being the library's square-root routine applied to the sample
variance. -/
def ageS1 (sa : ℚ → ℚ) (csv : DataFrame) : ℚ :=
  sa (svar (colNums "RIDAGEYR" (d1 csv)))

/-- The dataframe after adding the z-scored age column (line 612). -/
def d2 (sa : ℚ → ℚ) (csv : DataFrame) : DataFrame :=
  addCol "RIDAGEYR_z" (zRowFun (ageM1 csv) (ageS1 sa csv)) (d1 csv)

/-- The dataframe after deleting the z-scored age column (line 639). -/
def d3 (sa : ℚ → ℚ) (csv : DataFrame) : DataFrame :=
  delCol "RIDAGEYR_z" (d2 sa csv)

/-- The age column mean used for centering (line 686). -/
def ageM3 (sa : ℚ → ℚ) (csv : DataFrame) : ℚ :=
  mean (colNums "RIDAGEYR" (d3 sa csv))

/-- The final dataframe, after adding the centered age column (line 686). -/
def d4 (sa : ℚ → ℚ) (csv : DataFrame) : DataFrame :=
  addCol "RIDAGEYR_cen" (cenRowFun (ageM3 sa csv)) (d3 sa csv)

/-! ### The program cut into segments (for the run-inversion proof) -/

/-- Lines 92-112: imports, the CSV read, selection and `dropna`. -/
def prog1 : List Op :=
  [.importLib "matplotlib.pyplot", .importLib "seaborn", .importLib "pandas",
   .importLib "statsmodels.api", .importLib "numpy", .readCsv nhanesUrl,
   .selectDropna vars]

/-- Lines 178-378: the first three OLS fits, their summaries and
correlations, and the gender relabelling. -/
def prog2 : List Op :=
  [.fitModel .ols f1, .summaryOp, .stdCol "BPXSY1",
   .corrCols ["BPXSY1", "RIDAGEYR"], .printOp, .corrFitted, .printOp,
   .addGenderCol, .fitModel .ols f2, .summaryOp,
   .corrCols ["RIDAGEYR", "RIAGENDR"], .corrFitted, .printOp,
   .fitModel .ols f3, .summaryOp,
   .corrCols ["RIDAGEYR", "RIAGENDR", "BMXBMI"]]

/-- Lines 412-488: the `predict_functional` plots and residual plots. -/
def prog3a : List Op :=
  [.importLib "statsmodels.sandbox.predict_functional", .assignVals values0,
   .predictPlot "RIDAGEYR", .plotOp, .plotOp, .plotOp, .plotOp,
   .delVal "BMXBMI", .setVal "RIDAGEYR" (.num 50), .predictPlot "BMXBMI",
   .plotOp, .plotOp, .plotOp, .plotOp, .plotOp, .plotOp, .plotOp]

/-- Lines 512-585: partial residual plots and the two GLM fits with
their added-variable plots. -/
def prog3b : List Op :=
  [.importLib "statsmodels.graphics.regressionplots", .plotOp, .plotOp,
   .plotOp, .plotOp, .plotOp, .plotOp, .plotOp, .plotOp,
   .importLib "statsmodels.graphics.regressionplots", .fitModel .glm f3,
   .plotOp, .plotOp, .plotOp,
   .importLib "statsmodels.graphics.regressionplots", .fitModel .glm f3,
   .plotOp, .plotOp, .plotOp]

/-- Lines 612-639: the z-score column, the polynomial and spline fits,
and the deletion of the z-score column. -/
def prog4 : List Op :=
  [.addZCol, .fitModel .ols fz, .summaryOp, .fitModel .ols fbs, .summaryOp,
   .delZCol]

/-- Lines 640-709: the spline plot, the centered age column, the
interaction fit and the final plots. -/
def prog5 : List Op :=
  [.assignVals values0, .predictPlot "RIDAGEYR", .plotOp, .plotOp, .plotOp,
   .plotOp, .addCenCol, .fitModel .ols fint, .summaryOp,
   .setVal "RIAGENDRx" (.str "Female"), .setVal "RIDAGEYR" .na,
   .predictPlot "RIDAGEYR_cen", .plotOp, .setVal "RIAGENDRx" (.str "Male"),
   .predictPlot "RIDAGEYR_cen", .plotOp, .plotOp, .plotOp]

/-- The `values` dictionary after the first plotting block (lines
417-433). -/
def vals3 : List (String × Value) :=
  setA "RIDAGEYR" (Value.num 50) (values0.filter (fun p => p.1 != "BMXBMI"))

/-! ### A concrete sample world (used by the witnesses) -/

/-- A one-row sample CSV with all seven key columns observed. -/
def csv0 : DataFrame :=
  [[("BPXSY1", Value.num 120), ("RIDAGEYR", Value.num 30),
    ("RIAGENDR", Value.num 1), ("RIDRETH1", Value.num 1),
    ("DMDEDUC2", Value.num 1), ("BMXBMI", Value.num 25),
    ("SMQ020", Value.num 1)]]

/-- The sample CSV's single row (which survives `dropna` unchanged). -/
def row0 : Row :=
  [("BPXSY1", Value.num 120), ("RIDAGEYR", Value.num 30),
   ("RIAGENDR", Value.num 1), ("RIDRETH1", Value.num 1),
   ("DMDEDUC2", Value.num 1), ("BMXBMI", Value.num 25),
   ("SMQ020", Value.num 1)]

/-- A sample square-root routine (its values are irrelevant to the
structural claims). -/
def sa0 : ℚ → ℚ := fun _ => 1

/-- A world serving the sample CSV at the NHANES URL only. -/
def w0 : World := fun u => if u = nhanesUrl then some csv0 else none

/-- A world serving the sample CSV everywhere; it agrees with `w0` at
the NHANES URL. -/
def w0' : World := fun _ => some csv0

/-- A world serving nothing (every read fails). -/
def wnone : World := fun _ => none

/-- The initial interpreter state for the sample runs. -/
def env0 : Env := ⟨[], [], []⟩

/-- The import statements preceding the `read_csv` call. -/
def pre0 : List Op :=
  [.importLib "matplotlib.pyplot", .importLib "seaborn", .importLib "pandas",
   .importLib "statsmodels.api", .importLib "numpy"]

/-- The statements after the `read_csv` call. -/
def post0 : List Op := program.drop 6

/-- The `values` dictionary at the end of a run (lines 640, 697, 698,
703). -/
def vals5 : List (String × Value) :=
  setA "RIAGENDRx" (.str "Male")
    (setA "RIDAGEYR" .na (setA "RIAGENDRx" (.str "Female") values0))

/-- The final interpreter state of the sample run. -/
def envEnd : Env := Env.mk (d4 sa0 csv0) vals5 []

/-- Executable test that a list of naturals is strictly increasing. -/
def strictIncB : List ℕ → Bool
  | a :: b :: rest => decide (a < b) && strictIncB (b :: rest)
  | _ => true

/-! ### Least squares and the default GLM (for the estimation claim)

`Modelled from the spec:` the estimation routines live in statsmodels,
not in this repository, so they are modelled from the spec's
description: OLS chooses coefficients minimising the residual sum of
squares, and `sm.GLM.from_formula` with default settings fits a Gaussian
family whose log-likelihood is a constant minus the residual sum of
squares over `2 σ²`. -/

/-- The linear predictor `X β` of a design matrix. -/
def pred {n p : ℕ} (X : Fin n → Fin p → ℚ) (b : Fin p → ℚ) (i : Fin n) : ℚ :=
  ∑ j, X i j * b j

/-- The residual sum of squares of coefficients `b`. -/
def rss {n p : ℕ} (X : Fin n → Fin p → ℚ) (y : Fin n → ℚ) (b : Fin p → ℚ) : ℚ :=
  ∑ i, (y i - pred X b i) ^ 2

/-- Modelled from the spec: `sm.OLS` coefficient estimates minimise the
residual sum of squares. -/
def isOLSFit {n p : ℕ} (X : Fin n → Fin p → ℚ) (y : Fin n → ℚ)
    (b : Fin p → ℚ) : Prop :=
  ∀ b', rss X y b ≤ rss X y b'

/-- The Gaussian log-likelihood at fixed scale `s2 > 0`, up to the
additive constant `c` not depending on the coefficients. -/
def gaussLogLik {n p : ℕ} (c s2 : ℚ) (X : Fin n → Fin p → ℚ)
    (y : Fin n → ℚ) (b : Fin p → ℚ) : ℚ :=
  c - rss X y b / (2 * s2)

/-- Modelled from the spec: `sm.GLM` with default settings (Gaussian
family, identity link) estimates coefficients by maximising the Gaussian
log-likelihood. -/
def isGLMDefaultFit {n p : ℕ} (c s2 : ℚ) (X : Fin n → Fin p → ℚ)
    (y : Fin n → ℚ) (b : Fin p → ℚ) : Prop :=
  ∀ b', gaussLogLik c s2 X y b' ≤ gaussLogLik c s2 X y b

/-- Concrete 1×1 design used to witness the estimation claim. -/
def X0 : Fin 1 → Fin 1 → ℚ := fun _ _ => 1

/-- Concrete response used to witness the estimation claim. -/
def y0 : Fin 1 → ℚ := fun _ => 1

/-- Concrete coefficient vector used to witness the estimation claim. -/
def b0 : Fin 1 → ℚ := fun _ => 1

/-! ### Dataframe lemmas -/

theorem strictIncB_iff : ∀ l : List ℕ, strictIncB l = true ↔ List.Chain' (· < ·) l
  | [] => by simp [strictIncB]
  | [a] => by simp [strictIncB]
  | a :: b :: rest => by
      simp [strictIncB, List.chain'_cons, strictIncB_iff (b :: rest), and_comm]

/-! ### Statistics lemmas (for the derived-column claims) -/

theorem sum_map_sub_const (xs : List ℚ) (c : ℚ) :
    (xs.map (fun x => x - c)).sum = xs.sum - xs.length * c := by
  induction xs with
  | nil => simp
  | cons a as ih => simp [ih]; ring

theorem sum_map_div (xs : List ℚ) (f : ℚ → ℚ) (s : ℚ) :
    (xs.map (fun x => f x / s)).sum = (xs.map f).sum / s := by
  induction xs with
  | nil => simp
  | cons a as ih => simp [ih, div_add_div_same]

theorem sum_cen (xs : List ℚ) (h : xs ≠ []) : (cenCol xs).sum = 0 := by
  have hn0 : xs.length ≠ 0 := fun hh => h (List.length_eq_zero.mp hh)
  have hn : (xs.length : ℚ) ≠ 0 := by exact_mod_cast hn0
  rw [cenCol, sum_map_sub_const, mean]
  field_simp

theorem mean_cen (xs : List ℚ) : mean (cenCol xs) = 0 := by
  rcases eq_or_ne xs [] with rfl | h
  · simp [cenCol, mean]
  · rw [mean, sum_cen xs h, zero_div]

theorem mean_z (xs : List ℚ) (s : ℚ) (h : xs ≠ []) : mean (zCol xs s) = 0 := by
  have hz : (zCol xs s).sum = 0 := by
    rw [zCol, sum_map_div]
    rw [show (xs.map fun x => x - mean xs) = cenCol xs from rfl, sum_cen xs h,
      zero_div]
  rw [mean, hz, zero_div]

theorem svar_empty_ne (xs : List ℚ) (s : ℚ) (hpos : 0 < s)
    (hsq : s ^ 2 = svar xs) : xs ≠ [] := by
  intro h
  subst h
  rw [svar] at hsq
  simp at hsq
  exact absurd hsq (ne_of_gt hpos)

theorem svar_z (xs : List ℚ) (s : ℚ) (hne : xs ≠ []) :
    svar (zCol xs s) = svar xs / s ^ 2 := by
  have hm : mean (zCol xs s) = 0 := mean_z xs s hne
  rw [svar, hm]
  have hlen : (zCol xs s).length = xs.length := by simp [zCol]
  rw [hlen]
  have hmap : ((zCol xs s).map fun x => (x - 0) ^ 2).sum
      = ((xs.map fun x => (x - mean xs) ^ 2).sum) / s ^ 2 := by
    rw [zCol, List.map_map]
    have : ((fun x => (x - 0) ^ 2) ∘ fun x => (x - mean xs) / s)
        = fun x => ((x - mean xs) ^ 2) / s ^ 2 := by
      funext x
      simp [div_pow]
    rw [this, sum_map_div xs (fun x => (x - mean xs) ^ 2) (s ^ 2)]
  rw [hmap, svar, div_right_comm]

/-! ### The claims -/

/-- C1, counterexample: the sequence of fitted models is NOT strictly
increasing in complexity: the parameter counts in program order are
`[2, 3, 4, 4, 4, 4, 8, 5]` — the two GLM fits repeat the third model's
formula, and the final interaction model has fewer parameters than the
spline model before it. -/
theorem C1_counterexample :
    ¬ List.Chain' (· < ·) (modelFits.map (fun mf => complexity mf.2)) := by
  rw [← strictIncB_iff]
  decide

/-- C1, amended: the program loads one tabular dataset from a CSV, fits
eight linear models and produces diagnostic plots, with no top-level
behaviour beyond loading, cleaning, fitting, summaries/correlations/
printing, derived-column bookkeeping and plotting; the first model has a
single covariate, the last is the interaction model, and the complexity
is strictly increasing over the first three models, though not over the
whole sequence. -/
theorem C1_amended :
    (program.all topBehaviorB) = true ∧
    (program.flatMap urlsOf) = [nhanesUrl] ∧
    (program.any (fun op => match op with | .plotOp => true | _ => false)) = true ∧
    modelFits.length = 8 ∧
    (modelFits.map (fun mf => complexity mf.2)) = [2, 3, 4, 4, 4, 4, 8, 5] ∧
    List.Chain' (· < ·) ((modelFits.map (fun mf => complexity mf.2)).take 3) ∧
    (modelFits.head?.map (fun mf => mf.2.terms.length)) = some 1 ∧
    (modelFits.getLast?.map (fun mf => mf.2)) = some fint := by
  refine ⟨by decide, by decide, by decide, by decide, by decide, ?_, by decide, by decide⟩
  rw [← strictIncB_iff]
  decide

/-- C2: every regression model fit in the program has systolic blood
pressure, the column `BPXSY1`, as its outcome (left-hand-side) variable. -/
theorem C2_lhs_always_bpxsy1 :
    (modelFits.all (fun mf => mf.2.lhs == "BPXSY1")) = true := by
  decide

/-- C3: every fit uses `sm.OLS` or `sm.GLM` with default settings, and
for a fixed design and response the coefficient vectors optimal for the
default (Gaussian) GLM are exactly the coefficient vectors optimal for
OLS: maximising the Gaussian log-likelihood is equivalent to minimising
the residual sum of squares, so the two fits' coefficient estimates
coincide. -/
theorem C3_glm_default_is_ols {n p : ℕ} (X : Fin n → Fin p → ℚ)
    (y : Fin n → ℚ) (c s2 : ℚ) (hs2 : 0 < s2) (b : Fin p → ℚ) :
    (modelFits.all (fun mf => mf.1 == Method.ols || mf.1 == Method.glm)) = true ∧
    (isGLMDefaultFit c s2 X y b ↔ isOLSFit X y b) := by
  refine ⟨by decide, ?_⟩
  have key : ∀ u v : ℚ, (c - u / (2 * s2) ≤ c - v / (2 * s2)) ↔ v ≤ u := by
    intro u v
    rw [sub_le_sub_iff_left]
    constructor
    · intro h2
      have h3 := mul_le_mul_of_nonneg_right h2
        (le_of_lt (show (0:ℚ) < 2 * s2 by linarith))
      rwa [div_mul_cancel₀ _ (by positivity : (2 * s2) ≠ 0),
        div_mul_cancel₀ _ (by positivity : (2 * s2) ≠ 0)] at h3
    · intro h2
      exact div_le_div_of_nonneg_right h2 (by linarith) |>.trans_eq rfl
  constructor
  · intro hg b'
    exact (key (rss X y b') (rss X y b)).mp (hg b')
  · intro ho b'
    exact (key (rss X y b') (rss X y b)).mpr (ho b')

theorem C3_witness :
    (modelFits.all (fun mf => mf.1 == Method.ols || mf.1 == Method.glm)) = true ∧
    (isGLMDefaultFit 0 1 X0 y0 b0 ↔ isOLSFit X0 y0 b0) :=
  C3_glm_default_is_ols X0 y0 0 1 (by norm_num) b0

/-- C7: for any data column, the centered column `x - mean x` has sample
mean exactly zero; and whenever `s` is the (positive) sample standard
deviation — characterised by `s² = svar xs` — the z-scored column
`(x - mean x) / s` has sample mean zero, sample variance one, and hence
sample standard deviation one. -/
theorem C7_centering_scaling (xs : List ℚ) (s : ℚ) (hpos : 0 < s)
    (hsq : s ^ 2 = svar xs) :
    mean (cenCol xs) = 0 ∧ mean (zCol xs s) = 0 ∧ svar (zCol xs s) = 1 ∧
    ∀ t : ℚ, 0 ≤ t → t ^ 2 = svar (zCol xs s) → t = 1 := by
  have hne : xs ≠ [] := svar_empty_ne xs s hpos hsq
  have hs : s ≠ 0 := ne_of_gt hpos
  have hone : svar (zCol xs s) = 1 := by
    rw [svar_z xs s hne, ← hsq]
    field_simp
  refine ⟨mean_cen xs, mean_z xs s hne, hone, ?_⟩
  intro t ht h2
  rw [hone] at h2
  have : (t - 1) * (t + 1) = 0 := by ring_nf; linarith [h2]
  rcases mul_eq_zero.mp this with h | h
  · linarith
  · linarith


theorem lookupCol_cons (c n : String) (v : Value) (r : Row) :
    lookupCol c ((n, v) :: r) = if n == c then some v else lookupCol c r := by
  by_cases h : (n == c) = true <;> simp [lookupCol, List.find?_cons, h]

theorem lookupCol_append_some (c : String) (v : Value) :
    ∀ (r s : Row), lookupCol c r = some v → lookupCol c (r ++ s) = some v := by
  intro r
  induction r with
  | nil => intro s h; simp [lookupCol] at h
  | cons a r ih =>
      intro s h
      rcases a with ⟨n, x⟩
      rw [lookupCol_cons] at h
      rw [List.cons_append, lookupCol_cons]
      by_cases hn : (n == c) = true <;> simp [hn] at h ⊢
      · exact h
      · exact ih s h

theorem lookupCol_append_none (c : String) :
    ∀ (r s : Row), lookupCol c r = none → lookupCol c (r ++ s) = lookupCol c s := by
  intro r
  induction r with
  | nil => intro s _; rfl
  | cons a r ih =>
      intro s h
      rcases a with ⟨n, x⟩
      rw [lookupCol_cons] at h
      rw [List.cons_append, lookupCol_cons]
      by_cases hn : (n == c) = true <;> simp [hn] at h ⊢
      exact ih s h

theorem lookupCol_append_ne (c n : String) (v : Value) (r : Row) (h : n ≠ c) :
    lookupCol c (r ++ [(n, v)]) = lookupCol c r := by
  rcases hl : lookupCol c r with _ | u
  · rw [lookupCol_append_none c r [(n, v)] hl, lookupCol_cons]
    simp [h]
    rfl
  · exact lookupCol_append_some c u r [(n, v)] hl

theorem lookupCol_append_self (c : String) (v : Value) (r : Row) :
    (lookupCol c (r ++ [(c, v)])).isSome = true := by
  rcases hl : lookupCol c r with _ | u
  · rw [lookupCol_append_none c r [(c, v)] hl, lookupCol_cons]
    simp
  · rw [lookupCol_append_some c u r [(c, v)] hl]
    rfl

theorem lookupCol_append_isSome (c : String) (r s : Row)
    (h : (lookupCol c r).isSome = true) : (lookupCol c (r ++ s)).isSome = true := by
  rcases hl : lookupCol c r with _ | u
  · rw [hl] at h; simp at h
  · rw [lookupCol_append_some c u r s hl]
    rfl

theorem lookupCol_filter_ne (c n : String) (h : n ≠ c) :
    ∀ r : Row, lookupCol c (r.filter (fun p => p.1 != n)) = lookupCol c r := by
  intro r
  induction r with
  | nil => rfl
  | cons a r ih =>
      rcases a with ⟨m, x⟩
      by_cases hm : (m == n) = true
      · have hmn : m = n := by simpa using hm
        have hmc : (m == c) = false :=
          beq_eq_false_iff_ne.mpr (fun hh => h (hmn ▸ hh))
        rw [List.filter_cons, if_neg (by simp [bne, hm])]
        rw [ih, lookupCol_cons, hmc]
        simp
      · rw [List.filter_cons, if_pos (by simp [bne, hm])]
        rw [lookupCol_cons, lookupCol_cons]
        by_cases hc : (m == c) = true <;> simp [hc, ih]

theorem selectRow_cons (d : String) (cols : List String) (r : Row) :
    selectRow (d :: cols) r =
      match lookupCol d r with
      | some v => (d, v) :: selectRow cols r
      | none => selectRow cols r := by
  rcases h : lookupCol d r with _ | v <;> simp [selectRow, List.filterMap_cons, h]

theorem lookupCol_selectRow_none (c : String) (r : Row)
    (h : lookupCol c r = none) :
    ∀ cols : List String, lookupCol c (selectRow cols r) = none := by
  intro cols
  induction cols with
  | nil => rfl
  | cons d cols ih =>
      rw [selectRow_cons]
      rcases hd : lookupCol d r with _ | v
      · exact ih
      · rw [lookupCol_cons]
        by_cases hdc : (d == c) = true
        · have : d = c := by simpa using hdc
          subst this
          rw [h] at hd
          cases hd
        · simp [hdc, ih]

theorem lookupCol_selectRow_mem (c : String) (r : Row) :
    ∀ cols : List String, c ∈ cols →
      lookupCol c (selectRow cols r) = lookupCol c r := by
  intro cols
  induction cols with
  | nil => intro h; cases h
  | cons d cols ih =>
      intro hmem
      rw [selectRow_cons]
      rcases hd : lookupCol d r with _ | v
      · by_cases hdc : d = c
        · subst hdc
          rw [hd]
          exact lookupCol_selectRow_none d r hd cols
        · have : c ∈ cols := by
            rcases List.mem_cons.mp hmem with h | h
            · exact absurd h.symm hdc
            · exact h
          exact ih this
      · rw [lookupCol_cons]
        by_cases hdc : (d == c) = true
        · have : d = c := by simpa using hdc
          subst this
          simp [hd]
        · have : c ∈ cols := by
            rcases List.mem_cons.mp hmem with h | h
            · exact absurd (by simpa using h.symm) hdc
            · exact h
          simp [hdc, ih this]

theorem hasCol_iff (c : String) (df : DataFrame) :
    hasCol c df = true ↔ ∀ r ∈ df, (lookupCol c r).isSome = true := by
  simp [hasCol, List.all_eq_true]

theorem mem_dropna (r : Row) (df : DataFrame) :
    r ∈ dropna df ↔ r ∈ df ∧ (r.all (fun p => p.2 != Value.na)) = true :=
  List.mem_filter

theorem mem_selectCols (r : Row) (cols : List String) (df : DataFrame) :
    r ∈ selectCols cols df ↔ ∃ r₀ ∈ df, selectRow cols r₀ = r :=
  List.mem_map

theorem mem_addCol (r' : Row) (c : String) (f : Row → Value) (df : DataFrame) :
    r' ∈ addCol c f df ↔ ∃ r ∈ df, r ++ [(c, f r)] = r' :=
  List.mem_map

theorem mem_delCol (r' : Row) (c : String) (df : DataFrame) :
    r' ∈ delCol c df ↔ ∃ r ∈ df, r.filter (fun p => p.1 != c) = r' :=
  List.mem_map

theorem hasCol_dropna_select (c : String) (cols : List String) (df : DataFrame)
    (hc : c ∈ cols) (h : hasCol c df = true) :
    hasCol c (dropna (selectCols cols df)) = true := by
  rw [hasCol_iff] at h ⊢
  intro r hr
  obtain ⟨r₀, hr₀, rfl⟩ := (mem_selectCols _ _ _).mp ((mem_dropna _ _).mp hr).1
  rw [lookupCol_selectRow_mem c r₀ cols hc]
  exact h r₀ hr₀

theorem hasCol_addCol_self (c : String) (f : Row → Value) (df : DataFrame) :
    hasCol c (addCol c f df) = true := by
  rw [hasCol_iff]
  intro r hr
  obtain ⟨r₀, _, rfl⟩ := (mem_addCol _ _ _ _).mp hr
  exact lookupCol_append_self c (f r₀) r₀

theorem hasCol_addCol_mono (c n : String) (f : Row → Value) (df : DataFrame)
    (h : hasCol c df = true) : hasCol c (addCol n f df) = true := by
  rw [hasCol_iff] at h ⊢
  intro r hr
  obtain ⟨r₀, hr₀, rfl⟩ := (mem_addCol _ _ _ _).mp hr
  exact lookupCol_append_isSome c r₀ [(n, f r₀)] (h r₀ hr₀)

theorem hasCol_delCol_ne (c n : String) (df : DataFrame) (hne : n ≠ c)
    (h : hasCol c df = true) : hasCol c (delCol n df) = true := by
  rw [hasCol_iff] at h ⊢
  intro r hr
  obtain ⟨r₀, hr₀, rfl⟩ := (mem_delCol _ _ _).mp hr
  rw [lookupCol_filter_ne c n hne r₀]
  exact h r₀ hr₀

theorem colVals_addCol_ne (c n : String) (f : Row → Value) (hne : n ≠ c) :
    ∀ df : DataFrame, colVals c (addCol n f df) = colVals c df := by
  intro df
  induction df with
  | nil => rfl
  | cons r df ih =>
      simp only [colVals, addCol, List.map_cons, List.filterMap_cons] at ih ⊢
      rw [lookupCol_append_ne c n (f r) r hne]
      rcases lookupCol c r with _ | v <;> simp [ih]

theorem colVals_delCol_ne (c n : String) (hne : n ≠ c) :
    ∀ df : DataFrame, colVals c (delCol n df) = colVals c df := by
  intro df
  induction df with
  | nil => rfl
  | cons r df ih =>
      simp only [colVals, delCol, List.map_cons, List.filterMap_cons] at ih ⊢
      rw [lookupCol_filter_ne c n hne r]
      rcases lookupCol c r with _ | v <;> simp [ih]

theorem find?_hasCol_none (l : List String) (d : DataFrame)
    (h : ∀ c ∈ l, hasCol c d = true) :
    l.find? (fun c => !hasCol c d) = none := by
  rw [List.find?_eq_none]
  intro x hx
  simp [h x hx]

/-! ### Generic lemmas about the statement semantics -/

theorem runOps_nil (sa : ℚ → ℚ) (w : World) (env : Env) :
    runOps sa w [] env = (.ok env, []) := rfl

theorem runOps_cons_ok (sa : ℚ → ℚ) (w : World) (op : Op) (rest : List Op)
    (env env' : Env) (t : List Event)
    (h : execOp sa w op env = (.ok env', t)) :
    runOps sa w (op :: rest) env =
      ((runOps sa w rest env').1, t ++ (runOps sa w rest env').2) := by
  rcases hr : runOps sa w rest env' with ⟨r, t'⟩
  simp [runOps, h, hr]

theorem runOps_cons_err (sa : ℚ → ℚ) (w : World) (op : Op) (rest : List Op)
    (env : Env) (e : LibErr) (t : List Event)
    (h : execOp sa w op env = (.error e, t)) :
    runOps sa w (op :: rest) env = (.error e, t) := by
  simp [runOps, h]

/-- An uncaught exception aborts the run and propagates unchanged: if the
prefix succeeds and the next statement raises, the whole run returns that
very exception (with the events emitted so far). -/
theorem runOps_append_error (sa : ℚ → ℚ) (w : World) :
    ∀ (pre : List Op) (op : Op) (post : List Op) (env e1 : Env)
      (t1 t2 : List Event) (er : LibErr),
      runOps sa w pre env = (.ok e1, t1) →
      execOp sa w op e1 = (.error er, t2) →
      runOps sa w (pre ++ op :: post) env = (.error er, t1 ++ t2) := by
  intro pre
  induction pre with
  | nil =>
      intro op post env e1 t1 t2 er h1 h2
      rw [runOps_nil] at h1
      have ha : (Except.ok env : Except LibErr Env) = .ok e1 := congrArg Prod.fst h1
      have hb : ([] : List Event) = t1 := congrArg Prod.snd h1
      injection ha with ha
      subst ha
      subst hb
      rw [List.nil_append]
      exact runOps_cons_err sa w op post env er t2 h2
  | cons o pre ih =>
      intro op post env e1 t1 t2 er h1 h2
      rcases hx : execOp sa w o env with ⟨res, t⟩
      cases res with
      | error e =>
          rw [runOps_cons_err sa w o pre env e t hx] at h1
          exact absurd (congrArg Prod.fst h1) (by simp)
      | ok env'' =>
          rw [runOps_cons_ok sa w o pre env env'' t hx] at h1
          rcases hr : runOps sa w pre env'' with ⟨r', t'⟩
          rw [hr] at h1
          have hfst : r' = .ok e1 := congrArg Prod.fst h1
          have hsnd : t ++ t' = t1 := congrArg Prod.snd h1
          have hrec := ih op post env'' e1 t' t2 er (by rw [hr, hfst]) h2
          rw [List.cons_append, runOps_cons_ok sa w o (pre ++ op :: post) env env'' t hx,
            hrec]
          simp [← hsnd, List.append_assoc]

/-- Reads performed by one statement come from its syntactic URL set. -/
theorem reads_exec (sa : ℚ → ℚ) (w : World) :
    ∀ (op : Op) (env : Env) (u : String),
      Event.readEv u ∈ (execOp sa w op env).2 → u ∈ urlsOf op := by
  intro op
  induction op with
  | readCsv v =>
      intro env u h
      rcases hw : w v with _ | d <;> simp [execOp, hw] at h <;>
        simp [urlsOf, h]
  | selectDropna cols =>
      intro env u h
      rcases hf : cols.find? (fun c => !hasCol c env.da) with _ | c <;>
        simp [execOp, hf] at h
  | fitModel m f =>
      intro env u h
      rcases hf : f.allCols.find? (fun c => !hasCol c env.da) with _ | c <;>
        simp [execOp, hf] at h
  | addGenderCol =>
      intro env u h
      rcases hg : hasCol "RIAGENDR" env.da with _ | _ <;> simp [execOp, hg] at h
  | addZCol =>
      intro env u h
      rcases hg : hasCol "RIDAGEYR" env.da with _ | _ <;>
        rcases hs : (colVals "RIDAGEYR" env.da).any isStr with _ | _ <;>
          simp [execOp, hg, hs] at h
  | addCenCol =>
      intro env u h
      rcases hg : hasCol "RIDAGEYR" env.da with _ | _ <;>
        rcases hs : (colVals "RIDAGEYR" env.da).any isStr with _ | _ <;>
          simp [execOp, hg, hs] at h
  | delZCol =>
      intro env u h
      rcases hg : hasCol "RIDAGEYR_z" env.da with _ | _ <;> simp [execOp, hg] at h
  | delVal k =>
      intro env u h
      rcases hg : getA k env.vals with _ | v <;> simp [execOp, hg] at h
  | ifStmt b t e iht ihe =>
      intro env u h
      rcases hb : b env with _ | _ <;> simp [execOp, hb] at h
      · exact List.mem_append_right _ (ihe env u h)
      · exact List.mem_append_left _ (iht env u h)
  | tryExcept body handler ihb ihh =>
      intro env u h
      rcases hx : execOp sa w body env with ⟨res, t1⟩
      cases res with
      | error e =>
          rcases hy : execOp sa w handler env with ⟨r, t2⟩
          simp [execOp, hx, hy] at h
          rcases h with h | h
          · exact List.mem_append_left _ (ihb env u (by rw [hx]; exact h))
          · exact List.mem_append_right _ (ihh env u (by rw [hy]; exact h))
      | ok e' =>
          simp [execOp, hx] at h
          exact List.mem_append_left _ (ihb env u (by rw [hx]; exact h))
  | _ =>
      intro env u h
      simp [execOp] at h

/-- Reads performed by a run come from the syntactic URL set. -/
theorem reads_run (sa : ℚ → ℚ) (w : World) :
    ∀ (ops : List Op) (env : Env) (u : String),
      Event.readEv u ∈ (runOps sa w ops env).2 → u ∈ ops.flatMap urlsOf := by
  intro ops
  induction ops with
  | nil => intro env u h; simp [runOps_nil] at h
  | cons op rest ih =>
      intro env u h
      rcases hx : execOp sa w op env with ⟨res, t⟩
      cases res with
      | error e =>
          rw [runOps_cons_err sa w op rest env e t hx] at h
          exact List.mem_flatMap.mpr ⟨op, by simp,
            reads_exec sa w op env u (by rw [hx]; exact h)⟩
      | ok env' =>
          rw [runOps_cons_ok sa w op rest env env' t hx] at h
          simp at h
          rcases h with h | h
          · exact List.mem_flatMap.mpr ⟨op, by simp,
              reads_exec sa w op env u (by rw [hx]; exact h)⟩
          · have := ih env' u h
            simp [List.mem_flatMap] at this ⊢
            rcases this with ⟨o, ho, hu⟩
            exact Or.inr ⟨o, ho, hu⟩

/-- Writes performed by one statement come from its syntactic path set. -/
theorem writes_exec (sa : ℚ → ℚ) (w : World) :
    ∀ (op : Op) (env : Env) (q : String),
      Event.writeEv q ∈ (execOp sa w op env).2 → q ∈ writesOf op := by
  intro op
  induction op with
  | writeFile p s =>
      intro env q h
      simp [execOp] at h
      simp [writesOf, h]
  | readCsv v =>
      intro env q h
      rcases hw : w v with _ | d <;> simp [execOp, hw] at h
  | selectDropna cols =>
      intro env q h
      rcases hf : cols.find? (fun c => !hasCol c env.da) with _ | c <;>
        simp [execOp, hf] at h
  | fitModel m f =>
      intro env q h
      rcases hf : f.allCols.find? (fun c => !hasCol c env.da) with _ | c <;>
        simp [execOp, hf] at h
  | addGenderCol =>
      intro env q h
      rcases hg : hasCol "RIAGENDR" env.da with _ | _ <;> simp [execOp, hg] at h
  | addZCol =>
      intro env q h
      rcases hg : hasCol "RIDAGEYR" env.da with _ | _ <;>
        rcases hs : (colVals "RIDAGEYR" env.da).any isStr with _ | _ <;>
          simp [execOp, hg, hs] at h
  | addCenCol =>
      intro env q h
      rcases hg : hasCol "RIDAGEYR" env.da with _ | _ <;>
        rcases hs : (colVals "RIDAGEYR" env.da).any isStr with _ | _ <;>
          simp [execOp, hg, hs] at h
  | delZCol =>
      intro env q h
      rcases hg : hasCol "RIDAGEYR_z" env.da with _ | _ <;> simp [execOp, hg] at h
  | delVal k =>
      intro env q h
      rcases hg : getA k env.vals with _ | v <;> simp [execOp, hg] at h
  | ifStmt b t e iht ihe =>
      intro env q h
      rcases hb : b env with _ | _ <;> simp [execOp, hb] at h
      · exact List.mem_append_right _ (ihe env q h)
      · exact List.mem_append_left _ (iht env q h)
  | tryExcept body handler ihb ihh =>
      intro env q h
      rcases hx : execOp sa w body env with ⟨res, t1⟩
      cases res with
      | error e =>
          rcases hy : execOp sa w handler env with ⟨r, t2⟩
          simp [execOp, hx, hy] at h
          rcases h with h | h
          · exact List.mem_append_left _ (ihb env q (by rw [hx]; exact h))
          · exact List.mem_append_right _ (ihh env q (by rw [hy]; exact h))
      | ok e' =>
          simp [execOp, hx] at h
          exact List.mem_append_left _ (ihb env q (by rw [hx]; exact h))
  | _ =>
      intro env q h
      simp [execOp] at h

/-- Writes performed by a run come from the syntactic path set. -/
theorem writes_run (sa : ℚ → ℚ) (w : World) :
    ∀ (ops : List Op) (env : Env) (q : String),
      Event.writeEv q ∈ (runOps sa w ops env).2 → q ∈ ops.flatMap writesOf := by
  intro ops
  induction ops with
  | nil => intro env q h; simp [runOps_nil] at h
  | cons op rest ih =>
      intro env q h
      rcases hx : execOp sa w op env with ⟨res, t⟩
      cases res with
      | error e =>
          rw [runOps_cons_err sa w op rest env e t hx] at h
          exact List.mem_flatMap.mpr ⟨op, by simp,
            writes_exec sa w op env q (by rw [hx]; exact h)⟩
      | ok env' =>
          rw [runOps_cons_ok sa w op rest env env' t hx] at h
          simp at h
          rcases h with h | h
          · exact List.mem_flatMap.mpr ⟨op, by simp,
              writes_exec sa w op env q (by rw [hx]; exact h)⟩
          · have := ih env' q h
            simp [List.mem_flatMap] at this ⊢
            rcases this with ⟨o, ho, hu⟩
            exact Or.inr ⟨o, ho, hu⟩

/-- A statement with no syntactic writes leaves the file system alone. -/
theorem fs_exec (sa : ℚ → ℚ) (w : World) :
    ∀ (op : Op) (env env' : Env) (t : List Event),
      writesOf op = [] → execOp sa w op env = (.ok env', t) → env'.fs = env.fs := by
  intro op
  induction op with
  | writeFile p s =>
      intro env env' t hw h
      simp [writesOf] at hw
  | readCsv v =>
      intro env env' t _ h
      rcases hw : w v with _ | d <;> simp [execOp, hw] at h
      obtain ⟨rfl, -⟩ := h
      rfl
  | selectDropna cols =>
      intro env env' t _ h
      rcases hf : cols.find? (fun c => !hasCol c env.da) with _ | c <;>
        simp [execOp, hf] at h
      obtain ⟨rfl, -⟩ := h
      rfl
  | fitModel m f =>
      intro env env' t _ h
      rcases hf : f.allCols.find? (fun c => !hasCol c env.da) with _ | c <;>
        simp [execOp, hf] at h
      obtain ⟨rfl, -⟩ := h
      rfl
  | addGenderCol =>
      intro env env' t _ h
      rcases hg : hasCol "RIAGENDR" env.da with _ | _ <;> simp [execOp, hg] at h
      obtain ⟨rfl, -⟩ := h
      rfl
  | addZCol =>
      intro env env' t _ h
      rcases hg : hasCol "RIDAGEYR" env.da with _ | _ <;>
        rcases hs : (colVals "RIDAGEYR" env.da).any isStr with _ | _ <;>
          simp [execOp, hg, hs] at h
      obtain ⟨rfl, -⟩ := h
      rfl
  | addCenCol =>
      intro env env' t _ h
      rcases hg : hasCol "RIDAGEYR" env.da with _ | _ <;>
        rcases hs : (colVals "RIDAGEYR" env.da).any isStr with _ | _ <;>
          simp [execOp, hg, hs] at h
      obtain ⟨rfl, -⟩ := h
      rfl
  | delZCol =>
      intro env env' t _ h
      rcases hg : hasCol "RIDAGEYR_z" env.da with _ | _ <;> simp [execOp, hg] at h
      obtain ⟨rfl, -⟩ := h
      rfl
  | delVal k =>
      intro env env' t _ h
      rcases hg : getA k env.vals with _ | v <;> simp [execOp, hg] at h
      obtain ⟨rfl, -⟩ := h
      rfl
  | assignVals kvs =>
      intro env env' t _ h
      simp [execOp] at h
      obtain ⟨rfl, -⟩ := h
      rfl
  | setVal k v =>
      intro env env' t _ h
      simp [execOp] at h
      obtain ⟨rfl, -⟩ := h
      rfl
  | ifStmt b t e iht ihe =>
      intro env env' tr hw h
      have hw2 : writesOf t = [] ∧ writesOf e = [] := by
        simpa [writesOf, List.append_eq_nil] using hw
      rcases hb : b env with _ | _ <;> simp [execOp, hb] at h
      · exact ihe env env' tr hw2.2 h
      · exact iht env env' tr hw2.1 h
  | tryExcept body handler ihb ihh =>
      intro env env' tr hw h
      have hw2 : writesOf body = [] ∧ writesOf handler = [] := by
        simpa [writesOf, List.append_eq_nil] using hw
      rcases hx : execOp sa w body env with ⟨res, t1⟩
      cases res with
      | error e =>
          rcases hy : execOp sa w handler env with ⟨r, t2⟩
          simp [execOp, hx, hy] at h
          obtain ⟨hr, -⟩ := h
          exact ihh env env' t2 hw2.2 (by rw [hy, hr])
      | ok e' =>
          simp [execOp, hx] at h
          obtain ⟨rfl, -⟩ := h
          exact ihb env e' t1 hw2.1 hx
  | _ =>
      intro env env' t _ h
      simp [execOp] at h
      obtain ⟨rfl, -⟩ := h
      rfl

/-- A run of statements with no syntactic writes leaves the file system
alone. -/
theorem fs_run (sa : ℚ → ℚ) (w : World) :
    ∀ (ops : List Op) (env env' : Env) (t : List Event),
      ops.flatMap writesOf = [] → runOps sa w ops env = (.ok env', t) →
      env'.fs = env.fs := by
  intro ops
  induction ops with
  | nil =>
      intro env env' t _ h
      rw [runOps_nil] at h
      have : env = env' := by injection congrArg Prod.fst h
      rw [← this]
  | cons op rest ih =>
      intro env env' t hw h
      have hw2 : writesOf op = [] ∧ rest.flatMap writesOf = [] := by
        simpa [List.append_eq_nil] using hw
      rcases hx : execOp sa w op env with ⟨res, t1⟩
      cases res with
      | error e =>
          rw [runOps_cons_err sa w op rest env e t1 hx] at h
          exact absurd (congrArg Prod.fst h) (by simp)
      | ok env'' =>
          rw [runOps_cons_ok sa w op rest env env'' t1 hx] at h
          rcases hr : runOps sa w rest env'' with ⟨r', t'⟩
          rw [hr] at h
          have hfst : r' = .ok env' := congrArg Prod.fst h
          have h1 := fs_exec sa w op env env'' t1 hw2.1 hx
          have h2 := ih env'' env' t' hw2.2 (by rw [hr, hfst])
          rw [h2, h1]

/-- Statements whose URL sets agree on two worlds behave identically in
them (the world enters the semantics only through `readCsv`). -/
theorem exec_world_agree (sa : ℚ → ℚ) (w1 w2 : World) :
    ∀ (op : Op), (∀ u ∈ urlsOf op, w1 u = w2 u) →
      ∀ env, execOp sa w1 op env = execOp sa w2 op env := by
  intro op
  induction op with
  | readCsv v =>
      intro h env
      have : w1 v = w2 v := h v (by simp [urlsOf])
      simp [execOp, this]
  | ifStmt b t e iht ihe =>
      intro h env
      have ht : ∀ u ∈ urlsOf t, w1 u = w2 u := fun u hu =>
        h u (by simp [urlsOf, hu])
      have he : ∀ u ∈ urlsOf e, w1 u = w2 u := fun u hu =>
        h u (by simp [urlsOf, hu])
      rcases hb : b env with _ | _ <;> simp [execOp, hb, iht ht, ihe he]
  | tryExcept body handler ihb ihh =>
      intro h env
      have hb : ∀ u ∈ urlsOf body, w1 u = w2 u := fun u hu =>
        h u (by simp [urlsOf, hu])
      have hh : ∀ u ∈ urlsOf handler, w1 u = w2 u := fun u hu =>
        h u (by simp [urlsOf, hu])
      simp [execOp, ihb hb env, ihh hh env]
  | _ =>
      intro _ env
      simp [execOp]

/-- Runs whose URL sets agree on two worlds are identical in them. -/
theorem run_world_agree (sa : ℚ → ℚ) (w1 w2 : World) :
    ∀ (ops : List Op), (∀ u ∈ ops.flatMap urlsOf, w1 u = w2 u) →
      ∀ env, runOps sa w1 ops env = runOps sa w2 ops env := by
  intro ops
  induction ops with
  | nil => intro _ env; rw [runOps_nil, runOps_nil]
  | cons op rest ih =>
      intro h env
      have hop : ∀ u ∈ urlsOf op, w1 u = w2 u := fun u hu =>
        h u (by simp [List.mem_flatMap]; exact Or.inl hu)
      have hrest : ∀ u ∈ rest.flatMap urlsOf, w1 u = w2 u := fun u hu =>
        h u (by simp [List.mem_flatMap] at hu ⊢; exact Or.inr hu)
      rcases hx : execOp sa w1 op env with ⟨res, t⟩
      have hx2 : execOp sa w2 op env = (res, t) := by
        rw [← exec_world_agree sa w1 w2 op hop env, hx]
      cases res with
      | error e =>
          rw [runOps_cons_err sa w1 op rest env e t hx,
            runOps_cons_err sa w2 op rest env e t hx2]
      | ok env' =>
          rw [runOps_cons_ok sa w1 op rest env env' t hx,
            runOps_cons_ok sa w2 op rest env env' t hx2, ih hrest env']

/-! ### Stepwise inversion of a successful run -/

theorem step_ok {sa : ℚ → ℚ} {w : World} {op : Op} {rest : List Op}
    {env env' env₁ : Env} {tr t : List Event}
    (h : runOps sa w (op :: rest) env = (.ok env', tr))
    (hx : execOp sa w op env = (.ok env₁, t)) :
    ∃ tr', runOps sa w rest env₁ = (.ok env', tr') ∧ tr = t ++ tr' := by
  rw [runOps_cons_ok sa w op rest env env₁ t hx] at h
  rcases hr : runOps sa w rest env₁ with ⟨r, t'⟩
  rw [hr] at h
  have h1 : r = .ok env' := congrArg Prod.fst h
  have h2 : t ++ t' = tr := congrArg Prod.snd h
  refine ⟨t', ?_, h2.symm⟩
  rw [h1]

theorem step_err {sa : ℚ → ℚ} {w : World} {op : Op} {rest : List Op}
    {env env' : Env} {tr t : List Event} {e : LibErr}
    (h : runOps sa w (op :: rest) env = (.ok env', tr))
    (hx : execOp sa w op env = (.error e, t)) : False := by
  rw [runOps_cons_err sa w op rest env e t hx] at h
  exact absurd (congrArg Prod.fst h) (by simp)

theorem run_nil_inv {sa : ℚ → ℚ} {w : World} {env env' : Env} {tr : List Event}
    (h : runOps sa w [] env = (.ok env', tr)) : env' = env ∧ tr = [] := by
  rw [runOps_nil] at h
  have h1 := congrArg Prod.fst h
  have h2 := congrArg Prod.snd h
  refine ⟨?_, h2.symm⟩
  injection h1 with h1
  exact h1.symm

theorem execOp_read_ok {sa : ℚ → ℚ} {w : World} {u : String} {env : Env}
    {d : DataFrame} (hw : w u = some d) :
    execOp sa w (.readCsv u) env = (.ok (setDa env d), [.readEv u]) := by
  simp [execOp, hw]

theorem execOp_read_err {sa : ℚ → ℚ} {w : World} {u : String} {env : Env}
    (hw : w u = none) :
    execOp sa w (.readCsv u) env = (.error .readError, [.readEv u]) := by
  simp [execOp, hw]

theorem execOp_sel_ok {sa : ℚ → ℚ} {w : World} {cols : List String} {env : Env}
    (hc : ∀ c ∈ cols, hasCol c env.da = true) :
    execOp sa w (.selectDropna cols) env =
      (.ok (setDa env (dropna (selectCols cols env.da))), []) := by
  simp [execOp, find?_hasCol_none cols env.da hc]

theorem execOp_sel_err {sa : ℚ → ℚ} {w : World} {cols : List String} {env : Env}
    {c : String} (hc : cols.find? (fun c => !hasCol c env.da) = some c) :
    execOp sa w (.selectDropna cols) env = (.error (.keyError c), []) := by
  simp [execOp, hc]

theorem execOp_fit_ok {sa : ℚ → ℚ} {w : World} {m : Method} {f : Formula}
    {env : Env} (hc : ∀ c ∈ f.allCols, hasCol c env.da = true) :
    execOp sa w (.fitModel m f) env = (.ok env, [.fitEv m f env.da]) := by
  simp [execOp, find?_hasCol_none f.allCols env.da hc]

theorem execOp_gender_ok {sa : ℚ → ℚ} {w : World} {env : Env}
    (hc : hasCol "RIAGENDR" env.da = true) :
    execOp sa w .addGenderCol env =
      (.ok (setDa env (addCol "RIAGENDRx" genderRepl env.da)), []) := by
  simp [execOp, hc]

theorem execOp_z_ok {sa : ℚ → ℚ} {w : World} {env : Env}
    (hc : hasCol "RIDAGEYR" env.da = true)
    (hs : (colVals "RIDAGEYR" env.da).any isStr = false) :
    execOp sa w .addZCol env =
      (.ok (setDa env (addCol "RIDAGEYR_z"
        (zRowFun (mean (colNums "RIDAGEYR" env.da))
          (sa (svar (colNums "RIDAGEYR" env.da)))) env.da)), []) := by
  simp [execOp, hc, hs]

theorem execOp_z_str_err {sa : ℚ → ℚ} {w : World} {env : Env}
    (hc : hasCol "RIDAGEYR" env.da = true)
    (hs : (colVals "RIDAGEYR" env.da).any isStr = true) :
    execOp sa w .addZCol env = (.error .typeError, []) := by
  simp [execOp, hc, hs]

theorem execOp_cen_ok {sa : ℚ → ℚ} {w : World} {env : Env}
    (hc : hasCol "RIDAGEYR" env.da = true)
    (hs : (colVals "RIDAGEYR" env.da).any isStr = false) :
    execOp sa w .addCenCol env =
      (.ok (setDa env (addCol "RIDAGEYR_cen"
        (cenRowFun (mean (colNums "RIDAGEYR" env.da))) env.da)), []) := by
  simp [execOp, hc, hs]

theorem execOp_delZ_ok {sa : ℚ → ℚ} {w : World} {env : Env}
    (hc : hasCol "RIDAGEYR_z" env.da = true) :
    execOp sa w .delZCol env =
      (.ok (setDa env (delCol "RIDAGEYR_z" env.da)), []) := by
  simp [execOp, hc]

theorem colVals_age_d3 (sa : ℚ → ℚ) (csv : DataFrame) :
    colVals "RIDAGEYR" (d3 sa csv) = colVals "RIDAGEYR" (d1 csv) := by
  show colVals "RIDAGEYR" (delCol "RIDAGEYR_z" (d2 sa csv)) = _
  rw [colVals_delCol_ne "RIDAGEYR" "RIDAGEYR_z" (by decide) (d2 sa csv)]
  show colVals "RIDAGEYR" (addCol "RIDAGEYR_z"
    (zRowFun (ageM1 csv) (ageS1 sa csv)) (d1 csv)) = _
  rw [colVals_addCol_ne "RIDAGEYR" "RIDAGEYR_z"
    (zRowFun (ageM1 csv) (ageS1 sa csv)) (by decide) (d1 csv)]

/-- Decompose a successful run of a concatenation into successful runs
of the two halves. -/
theorem runOps_append_ok {sa : ℚ → ℚ} {w : World} :
    ∀ (A : List Op) {B : List Op} {env env' : Env} {tr : List Event},
      runOps sa w (A ++ B) env = (.ok env', tr) →
      ∃ e1 t1 t2, runOps sa w A env = (.ok e1, t1) ∧
        runOps sa w B e1 = (.ok env', t2) ∧ tr = t1 ++ t2 := by
  intro A
  induction A with
  | nil =>
      intro B env env' tr h
      exact ⟨env, [], tr, runOps_nil sa w env, h, rfl⟩
  | cons op A ih =>
      intro B env env' tr h
      rw [List.cons_append] at h
      rcases hx : execOp sa w op env with ⟨res, t⟩
      cases res with
      | error e =>
          rw [runOps_cons_err sa w op (A ++ B) env e t hx] at h
          exact absurd (congrArg Prod.fst h) (by simp)
      | ok env₁ =>
          obtain ⟨t', hAB, rfl⟩ := step_ok h hx
          obtain ⟨e1, t1, t2, hA, hB, rfl⟩ := ih hAB
          refine ⟨e1, t ++ t1, t2, ?_, hB, by rw [List.append_assoc]⟩
          rw [runOps_cons_ok sa w op A env env₁ t hx, hA]

/-- Inversion of segment 1: the CSV must resolve and contain the key
columns; the state ends at the cleaned dataframe. -/
theorem prog1_inv {sa : ℚ → ℚ} {w : World} {env env' : Env} {tr : List Event}
    (h : runOps sa w prog1 env = (.ok env', tr)) :
    ∃ csv, w nhanesUrl = some csv ∧ (∀ c ∈ vars, hasCol c csv = true) ∧
      env' = setDa env (df0 csv) ∧ tr = [.readEv nhanesUrl] := by
  simp only [prog1] at h
  obtain ⟨t01, h01, rfl⟩ := step_ok h rfl
  obtain ⟨t02, h02, rfl⟩ := step_ok h01 rfl
  obtain ⟨t03, h03, rfl⟩ := step_ok h02 rfl
  obtain ⟨t04, h04, rfl⟩ := step_ok h03 rfl
  obtain ⟨t05, h05, rfl⟩ := step_ok h04 rfl
  rcases hw : w nhanesUrl with _ | csv
  · exact (step_err h05 (execOp_read_err hw)).elim
  obtain ⟨t06, h06, rfl⟩ := step_ok h05 (execOp_read_ok hw)
  rcases hsel : vars.find? (fun c => !hasCol c csv) with _ | badc
  case some => exact (step_err h06 (execOp_sel_err hsel)).elim
  have hvars : ∀ c ∈ vars, hasCol c csv = true := by
    intro c hc
    have := List.find?_eq_none.mp hsel c hc
    simpa using this
  obtain ⟨t07, h07, rfl⟩ := step_ok h06 (execOp_sel_ok hvars)
  obtain ⟨rfl, rfl⟩ := run_nil_inv h07
  exact ⟨csv, rfl, hvars, rfl, rfl⟩

/-- Inversion of segment 2: the first three OLS fits see the cleaned
dataframe (before/after gender relabelling); the state gains `RIAGENDRx`. -/
theorem prog2_inv {sa : ℚ → ℚ} {w : World} {env env' : Env} {tr : List Event}
    (hp0 : ∀ c ∈ vars, hasCol c env.da = true)
    (h : runOps sa w prog2 env = (.ok env', tr)) :
    env' = setDa env (addCol "RIAGENDRx" genderRepl env.da) ∧
    ∀ m f d, Event.fitEv m f d ∈ tr →
      d = env.da ∨ d = addCol "RIAGENDRx" genderRepl env.da := by
  simp only [prog2] at h
  have hf1 : ∀ c ∈ f1.allCols, hasCol c env.da = true := by
    intro c hc
    rw [show f1.allCols = ["BPXSY1", "RIDAGEYR"] from rfl] at hc
    simp at hc
    rcases hc with rfl | rfl
    · exact hp0 _ (by decide)
    · exact hp0 _ (by decide)
  obtain ⟨t01, h01, rfl⟩ := step_ok h (execOp_fit_ok hf1)
  obtain ⟨t02, h02, rfl⟩ := step_ok h01 rfl
  obtain ⟨t03, h03, rfl⟩ := step_ok h02 rfl
  obtain ⟨t04, h04, rfl⟩ := step_ok h03 rfl
  obtain ⟨t05, h05, rfl⟩ := step_ok h04 rfl
  obtain ⟨t06, h06, rfl⟩ := step_ok h05 rfl
  obtain ⟨t07, h07, rfl⟩ := step_ok h06 rfl
  obtain ⟨t08, h08, rfl⟩ := step_ok h07 (execOp_gender_ok (hp0 _ (by decide)))
  have hp1 : ∀ c ∈ vars, hasCol c (addCol "RIAGENDRx" genderRepl env.da) = true :=
    fun c hc => hasCol_addCol_mono c "RIAGENDRx" genderRepl env.da (hp0 c hc)
  have hgx1 : hasCol "RIAGENDRx" (addCol "RIAGENDRx" genderRepl env.da) = true :=
    hasCol_addCol_self "RIAGENDRx" genderRepl env.da
  have hf2 : ∀ c ∈ f2.allCols,
      hasCol c (addCol "RIAGENDRx" genderRepl env.da) = true := by
    intro c hc
    rw [show f2.allCols = ["BPXSY1", "RIDAGEYR", "RIAGENDRx"] from rfl] at hc
    simp at hc
    rcases hc with rfl | rfl | rfl
    · exact hp1 _ (by decide)
    · exact hp1 _ (by decide)
    · exact hgx1
  obtain ⟨t09, h09, rfl⟩ := step_ok h08 (execOp_fit_ok hf2)
  obtain ⟨t10, h10, rfl⟩ := step_ok h09 rfl
  obtain ⟨t11, h11, rfl⟩ := step_ok h10 rfl
  obtain ⟨t12, h12, rfl⟩ := step_ok h11 rfl
  obtain ⟨t13, h13, rfl⟩ := step_ok h12 rfl
  have hf3 : ∀ c ∈ f3.allCols,
      hasCol c (addCol "RIAGENDRx" genderRepl env.da) = true := by
    intro c hc
    rw [show f3.allCols = ["BPXSY1", "RIDAGEYR", "BMXBMI", "RIAGENDRx"]
      from rfl] at hc
    simp at hc
    rcases hc with rfl | rfl | rfl | rfl
    · exact hp1 _ (by decide)
    · exact hp1 _ (by decide)
    · exact hp1 _ (by decide)
    · exact hgx1
  obtain ⟨t14, h14, rfl⟩ := step_ok h13 (execOp_fit_ok hf3)
  obtain ⟨t15, h15, rfl⟩ := step_ok h14 rfl
  obtain ⟨t16, h16, rfl⟩ := step_ok h15 rfl
  obtain ⟨rfl, rfl⟩ := run_nil_inv h16
  refine ⟨rfl, ?_⟩
  intro m f d hm
  simp at hm
  rcases hm with ⟨-, -, rfl⟩ | ⟨-, -, rfl⟩ | ⟨-, -, rfl⟩
  · exact Or.inl rfl
  · exact Or.inr rfl
  · exact Or.inr rfl

/-- Inversion of segment 3a: only plots and `values` bookkeeping, no
fits, dataframe untouched. -/
theorem prog3a_inv {sa : ℚ → ℚ} {w : World} {env env' : Env} {tr : List Event}
    (h : runOps sa w prog3a env = (.ok env', tr)) :
    env' = { env with vals := vals3 } ∧
    ∀ m f d, Event.fitEv m f d ∈ tr → False := by
  simp only [prog3a] at h
  obtain ⟨t01, h01, rfl⟩ := step_ok h rfl
  obtain ⟨t02, h02, rfl⟩ := step_ok h01 rfl
  obtain ⟨t03, h03, rfl⟩ := step_ok h02 rfl
  obtain ⟨t04, h04, rfl⟩ := step_ok h03 rfl
  obtain ⟨t05, h05, rfl⟩ := step_ok h04 rfl
  obtain ⟨t06, h06, rfl⟩ := step_ok h05 rfl
  obtain ⟨t07, h07, rfl⟩ := step_ok h06 rfl
  obtain ⟨t08, h08, rfl⟩ := step_ok h07 rfl
  obtain ⟨t09, h09, rfl⟩ := step_ok h08 rfl
  obtain ⟨t10, h10, rfl⟩ := step_ok h09 rfl
  obtain ⟨t11, h11, rfl⟩ := step_ok h10 rfl
  obtain ⟨t12, h12, rfl⟩ := step_ok h11 rfl
  obtain ⟨t13, h13, rfl⟩ := step_ok h12 rfl
  obtain ⟨t14, h14, rfl⟩ := step_ok h13 rfl
  obtain ⟨t15, h15, rfl⟩ := step_ok h14 rfl
  obtain ⟨t16, h16, rfl⟩ := step_ok h15 rfl
  obtain ⟨t17, h17, rfl⟩ := step_ok h16 rfl
  obtain ⟨rfl, rfl⟩ := run_nil_inv h17
  refine ⟨rfl, ?_⟩
  intro m f d hm
  simp at hm

/-- Inversion of segment 3b: the two GLM fits see the current dataframe
and change nothing. -/
theorem prog3b_inv {sa : ℚ → ℚ} {w : World} {env env' : Env} {tr : List Event}
    (hf : ∀ c ∈ f3.allCols, hasCol c env.da = true)
    (h : runOps sa w prog3b env = (.ok env', tr)) :
    env' = env ∧ ∀ m f d, Event.fitEv m f d ∈ tr → d = env.da := by
  simp only [prog3b] at h
  obtain ⟨t01, h01, rfl⟩ := step_ok h rfl
  obtain ⟨t02, h02, rfl⟩ := step_ok h01 rfl
  obtain ⟨t03, h03, rfl⟩ := step_ok h02 rfl
  obtain ⟨t04, h04, rfl⟩ := step_ok h03 rfl
  obtain ⟨t05, h05, rfl⟩ := step_ok h04 rfl
  obtain ⟨t06, h06, rfl⟩ := step_ok h05 rfl
  obtain ⟨t07, h07, rfl⟩ := step_ok h06 rfl
  obtain ⟨t08, h08, rfl⟩ := step_ok h07 rfl
  obtain ⟨t09, h09, rfl⟩ := step_ok h08 rfl
  obtain ⟨t10, h10, rfl⟩ := step_ok h09 rfl
  obtain ⟨t11, h11, rfl⟩ := step_ok h10 (execOp_fit_ok hf)
  obtain ⟨t12, h12, rfl⟩ := step_ok h11 rfl
  obtain ⟨t13, h13, rfl⟩ := step_ok h12 rfl
  obtain ⟨t14, h14, rfl⟩ := step_ok h13 rfl
  obtain ⟨t15, h15, rfl⟩ := step_ok h14 rfl
  obtain ⟨t16, h16, rfl⟩ := step_ok h15 (execOp_fit_ok hf)
  obtain ⟨t17, h17, rfl⟩ := step_ok h16 rfl
  obtain ⟨t18, h18, rfl⟩ := step_ok h17 rfl
  obtain ⟨t19, h19, rfl⟩ := step_ok h18 rfl
  obtain ⟨rfl, rfl⟩ := run_nil_inv h19
  refine ⟨rfl, ?_⟩
  intro m f d hm
  simp at hm
  obtain ⟨-, -, rfl⟩ := hm
  rfl

/-- Segment 4 raises a `TypeError` if the age column holds a string. -/
theorem prog4_err {sa : ℚ → ℚ} {w : World} {env env' : Env} {tr : List Event}
    (hage : hasCol "RIDAGEYR" env.da = true)
    (hstr : (colVals "RIDAGEYR" env.da).any isStr = true)
    (h : runOps sa w prog4 env = (.ok env', tr)) : False := by
  simp only [prog4] at h
  exact step_err h (execOp_z_str_err hage hstr)

/-- Inversion of segment 4: the polynomial and spline fits see the
dataframe with the z-score column; it is deleted again at the end. -/
theorem prog4_inv {sa : ℚ → ℚ} {w : World} {env env' : Env} {tr : List Event}
    (hbp : hasCol "BPXSY1" env.da = true)
    (hage : hasCol "RIDAGEYR" env.da = true)
    (hbmi : hasCol "BMXBMI" env.da = true)
    (hgx : hasCol "RIAGENDRx" env.da = true)
    (hstr : (colVals "RIDAGEYR" env.da).any isStr = false)
    (h : runOps sa w prog4 env = (.ok env', tr)) :
    env' = setDa env (delCol "RIDAGEYR_z" (addCol "RIDAGEYR_z"
      (zRowFun (mean (colNums "RIDAGEYR" env.da))
        (sa (svar (colNums "RIDAGEYR" env.da)))) env.da)) ∧
    ∀ m f d, Event.fitEv m f d ∈ tr →
      d = addCol "RIDAGEYR_z" (zRowFun (mean (colNums "RIDAGEYR" env.da))
        (sa (svar (colNums "RIDAGEYR" env.da)))) env.da := by
  simp only [prog4] at h
  obtain ⟨t01, h01, rfl⟩ := step_ok h (execOp_z_ok hage hstr)
  have hz : hasCol "RIDAGEYR_z" (addCol "RIDAGEYR_z"
      (zRowFun (mean (colNums "RIDAGEYR" env.da))
        (sa (svar (colNums "RIDAGEYR" env.da)))) env.da) = true :=
    hasCol_addCol_self _ _ _
  have hfz' : ∀ c ∈ fz.allCols, hasCol c (addCol "RIDAGEYR_z"
      (zRowFun (mean (colNums "RIDAGEYR" env.da))
        (sa (svar (colNums "RIDAGEYR" env.da)))) env.da) = true := by
    intro c hc
    rw [show fz.allCols = ["BPXSY1", "RIDAGEYR_z", "RIDAGEYR_z", "RIAGENDRx"]
      from rfl] at hc
    simp at hc
    rcases hc with rfl | rfl | rfl
    · exact hasCol_addCol_mono _ _ _ _ hbp
    · exact hz
    · exact hasCol_addCol_mono _ _ _ _ hgx
  obtain ⟨t02, h02, rfl⟩ := step_ok h01 (execOp_fit_ok hfz')
  obtain ⟨t03, h03, rfl⟩ := step_ok h02 rfl
  have hfbs' : ∀ c ∈ fbs.allCols, hasCol c (addCol "RIDAGEYR_z"
      (zRowFun (mean (colNums "RIDAGEYR" env.da))
        (sa (svar (colNums "RIDAGEYR" env.da)))) env.da) = true := by
    intro c hc
    rw [show fbs.allCols = ["BPXSY1", "RIDAGEYR", "BMXBMI", "RIAGENDRx"]
      from rfl] at hc
    simp at hc
    rcases hc with rfl | rfl | rfl | rfl
    · exact hasCol_addCol_mono _ _ _ _ hbp
    · exact hasCol_addCol_mono _ _ _ _ hage
    · exact hasCol_addCol_mono _ _ _ _ hbmi
    · exact hasCol_addCol_mono _ _ _ _ hgx
  obtain ⟨t04, h04, rfl⟩ := step_ok h03 (execOp_fit_ok hfbs')
  obtain ⟨t05, h05, rfl⟩ := step_ok h04 rfl
  obtain ⟨t06, h06, rfl⟩ := step_ok h05 (execOp_delZ_ok hz)
  obtain ⟨rfl, rfl⟩ := run_nil_inv h06
  refine ⟨rfl, ?_⟩
  intro m f d hm
  simp at hm
  rcases hm with ⟨-, -, rfl⟩ | ⟨-, -, rfl⟩
  · rfl
  · rfl

/-- Inversion of segment 5: the interaction fit sees the dataframe with
the centered age column. -/
theorem prog5_inv {sa : ℚ → ℚ} {w : World} {env env' : Env} {tr : List Event}
    (hbp : hasCol "BPXSY1" env.da = true)
    (hage : hasCol "RIDAGEYR" env.da = true)
    (hbmi : hasCol "BMXBMI" env.da = true)
    (hgx : hasCol "RIAGENDRx" env.da = true)
    (hstr : (colVals "RIDAGEYR" env.da).any isStr = false)
    (h : runOps sa w prog5 env = (.ok env', tr)) :
    env' = Env.mk (addCol "RIDAGEYR_cen"
      (cenRowFun (mean (colNums "RIDAGEYR" env.da))) env.da) vals5 env.fs ∧
    ∀ m f d, Event.fitEv m f d ∈ tr →
      d = addCol "RIDAGEYR_cen"
        (cenRowFun (mean (colNums "RIDAGEYR" env.da))) env.da := by
  simp only [prog5] at h
  obtain ⟨t01, h01, rfl⟩ := step_ok h rfl
  obtain ⟨t02, h02, rfl⟩ := step_ok h01 rfl
  obtain ⟨t03, h03, rfl⟩ := step_ok h02 rfl
  obtain ⟨t04, h04, rfl⟩ := step_ok h03 rfl
  obtain ⟨t05, h05, rfl⟩ := step_ok h04 rfl
  obtain ⟨t06, h06, rfl⟩ := step_ok h05 rfl
  obtain ⟨t07, h07, rfl⟩ := step_ok h06 (execOp_cen_ok hage hstr)
  have hfint' : ∀ c ∈ fint.allCols, hasCol c (addCol "RIDAGEYR_cen"
      (cenRowFun (mean (colNums "RIDAGEYR" env.da))) env.da) = true := by
    intro c hc
    rw [show fint.allCols = ["BPXSY1", "RIDAGEYR_cen", "RIAGENDRx", "BMXBMI"]
      from rfl] at hc
    simp at hc
    rcases hc with rfl | rfl | rfl | rfl
    · exact hasCol_addCol_mono _ _ _ _ hbp
    · exact hasCol_addCol_self _ _ _
    · exact hasCol_addCol_mono _ _ _ _ hgx
    · exact hasCol_addCol_mono _ _ _ _ hbmi
  obtain ⟨t08, h08, rfl⟩ := step_ok h07 (execOp_fit_ok hfint')
  obtain ⟨t09, h09, rfl⟩ := step_ok h08 rfl
  obtain ⟨t10, h10, rfl⟩ := step_ok h09 rfl
  obtain ⟨t11, h11, rfl⟩ := step_ok h10 rfl
  obtain ⟨t12, h12, rfl⟩ := step_ok h11 rfl
  obtain ⟨t13, h13, rfl⟩ := step_ok h12 rfl
  obtain ⟨t14, h14, rfl⟩ := step_ok h13 rfl
  obtain ⟨t15, h15, rfl⟩ := step_ok h14 rfl
  obtain ⟨t16, h16, rfl⟩ := step_ok h15 rfl
  obtain ⟨t17, h17, rfl⟩ := step_ok h16 rfl
  obtain ⟨t18, h18, rfl⟩ := step_ok h17 rfl
  obtain ⟨rfl, rfl⟩ := run_nil_inv h18
  refine ⟨rfl, ?_⟩
  intro m f d hm
  simp at hm
  obtain ⟨-, -, rfl⟩ := hm
  rfl

/-- Full inversion of a successful program run: the world must serve a
CSV at the NHANES URL, that CSV must contain the seven key columns, the
post-relabelling age column must be numeric, the final dataframe is `d4`,
the file system is untouched, and every dataframe passed to a model fit
is one of the four stages `df0`, `d1`, `d2`, `d4`. -/
theorem run_program_ok {sa : ℚ → ℚ} {w : World} {env env' : Env}
    {tr : List Event}
    (h : runOps sa w program env = (.ok env', tr)) :
    ∃ csv, w nhanesUrl = some csv ∧
      (∀ c ∈ vars, hasCol c csv = true) ∧
      (colVals "RIDAGEYR" (d1 csv)).any isStr = false ∧
      env'.da = d4 sa csv ∧ env'.fs = env.fs ∧
      (∀ m f d, Event.fitEv m f d ∈ tr →
        d = df0 csv ∨ d = d1 csv ∨ d = d2 sa csv ∨ d = d4 sa csv) := by
  rw [show program = prog1 ++ (prog2 ++ (prog3a ++ (prog3b ++ (prog4 ++ prog5))))
    from rfl] at h
  obtain ⟨e1, tA, tB, h1, h, rfl⟩ := runOps_append_ok prog1 h
  obtain ⟨csv, hw, hvars, he1, rfl⟩ := prog1_inv h1
  subst he1
  have hp0 : ∀ c ∈ vars, hasCol c (df0 csv) = true := fun c hc =>
    hasCol_dropna_select c vars csv hc (hvars c hc)
  obtain ⟨e2, tB1, tB2, h2, h, rfl⟩ := runOps_append_ok prog2 h
  obtain ⟨he2, hfit2⟩ := prog2_inv (fun c hc => hp0 c hc) h2
  subst he2
  have hh2 : runOps sa w (prog3a ++ (prog3b ++ (prog4 ++ prog5)))
      (Env.mk (d1 csv) env.vals env.fs) = (.ok env', tB2) := h
  have hp1 : ∀ c ∈ vars, hasCol c (d1 csv) = true := fun c hc =>
    hasCol_addCol_mono c "RIAGENDRx" genderRepl (df0 csv) (hp0 c hc)
  have hgx1 : hasCol "RIAGENDRx" (d1 csv) = true :=
    hasCol_addCol_self "RIAGENDRx" genderRepl (df0 csv)
  obtain ⟨e3, tC1, tC2, h3, hh3, rfl⟩ := runOps_append_ok prog3a hh2
  obtain ⟨he3, hfit3a⟩ := prog3a_inv h3
  subst he3
  have hh3' : runOps sa w (prog3b ++ (prog4 ++ prog5))
      (Env.mk (d1 csv) vals3 env.fs) = (.ok env', tC2) := hh3
  have hf3 : ∀ c ∈ f3.allCols, hasCol c (d1 csv) = true := by
    intro c hc
    rw [show f3.allCols = ["BPXSY1", "RIDAGEYR", "BMXBMI", "RIAGENDRx"]
      from rfl] at hc
    simp at hc
    rcases hc with rfl | rfl | rfl | rfl
    · exact hp1 _ (by decide)
    · exact hp1 _ (by decide)
    · exact hp1 _ (by decide)
    · exact hgx1
  obtain ⟨e4, tD1, tD2, h4, hh4, rfl⟩ := runOps_append_ok prog3b hh3'
  obtain ⟨he4, hfit3b⟩ := prog3b_inv hf3 h4
  subst he4
  have hh4' : runOps sa w (prog4 ++ prog5)
      (Env.mk (d1 csv) vals3 env.fs) = (.ok env', tD2) := hh4
  obtain ⟨e5, tE1, tE2, h5, hh5, rfl⟩ := runOps_append_ok prog4 hh4'
  rcases hstr : (colVals "RIDAGEYR" (d1 csv)).any isStr with _ | _
  case true => exact (prog4_err (hp1 _ (by decide)) hstr h5).elim
  obtain ⟨he5, hfit4⟩ := prog4_inv (hp1 _ (by decide)) (hp1 _ (by decide))
    (hp1 _ (by decide)) hgx1 hstr h5
  subst he5
  have hh5' : runOps sa w prog5 (Env.mk (d3 sa csv) vals3 env.fs) =
      (.ok env', tE2) := hh5
  have hzne : ∀ c ∈ vars, "RIDAGEYR_z" ≠ c := by decide
  have hp2 : ∀ c ∈ vars, hasCol c (d2 sa csv) = true := fun c hc =>
    hasCol_addCol_mono c "RIDAGEYR_z" (zRowFun (ageM1 csv) (ageS1 sa csv))
      (d1 csv) (hp1 c hc)
  have hp3 : ∀ c ∈ vars, hasCol c (d3 sa csv) = true := fun c hc =>
    hasCol_delCol_ne c "RIDAGEYR_z" (d2 sa csv) (hzne c hc) (hp2 c hc)
  have hgx3 : hasCol "RIAGENDRx" (d3 sa csv) = true :=
    hasCol_delCol_ne "RIAGENDRx" "RIDAGEYR_z" (d2 sa csv) (by decide)
      (hasCol_addCol_mono "RIAGENDRx" "RIDAGEYR_z"
        (zRowFun (ageM1 csv) (ageS1 sa csv)) (d1 csv) hgx1)
  have hstr3 : (colVals "RIDAGEYR" (d3 sa csv)).any isStr = false := by
    rw [colVals_age_d3 sa csv]
    exact hstr
  obtain ⟨he6, hfit5⟩ := prog5_inv (hp3 _ (by decide)) (hp3 _ (by decide))
    (hp3 _ (by decide)) hgx3 hstr3 hh5'
  subst he6
  refine ⟨csv, hw, hvars, hstr, rfl, rfl, ?_⟩
  intro m f d hm
  rcases List.mem_append.mp hm with hm | hm
  · simp at hm
  rcases List.mem_append.mp hm with hm | hm
  · rcases hfit2 m f d hm with hd | hd
    · exact Or.inl hd
    · exact Or.inr (Or.inl hd)
  rcases List.mem_append.mp hm with hm | hm
  · exact (hfit3a m f d hm).elim
  rcases List.mem_append.mp hm with hm | hm
  · exact Or.inr (Or.inl (hfit3b m f d hm))
  rcases List.mem_append.mp hm with hm | hm
  · exact Or.inr (Or.inr (Or.inl (hfit4 m f d hm)))
  exact Or.inr (Or.inr (Or.inr (hfit5 m f d hm)))

/-- C4: the program installs no exception handler (no `try`/`except`
anywhere), and consequently any library exception raised by a statement
propagates out of the run unchanged: if the statements before it succeed
and a statement raises `er`, the whole program run returns exactly `er`. -/
theorem C4_no_error_handling :
    (program.all noTryB) = true ∧
    ∀ (sa : ℚ → ℚ) (w : World) (env e1 : Env) (pre : List Op) (op : Op)
      (post : List Op) (t1 t2 : List Event) (er : LibErr),
      program = pre ++ op :: post →
      runOps sa w pre env = (.ok e1, t1) →
      execOp sa w op e1 = (.error er, t2) →
      runOps sa w program env = (.error er, t1 ++ t2) := by
  refine ⟨by decide, ?_⟩
  intro sa w env e1 pre op post t1 t2 er hsplit h1 h2
  rw [hsplit]
  exact runOps_append_error sa w pre op post env e1 t1 t2 er h1 h2

/-- C6: the program is straight-line — no branching, no exception
handling, no locally defined functions — and the run is a deterministic
function of the CSV contents: two runs over worlds serving the same CSV
at the program's URL produce identical results and identical event
traces (all fitted-model inputs, printed output and plots included). -/
theorem C6_deterministic :
    (program.all straightLineB) = true ∧
    ∀ (sa : ℚ → ℚ) (w1 w2 : World) (env : Env),
      w1 nhanesUrl = w2 nhanesUrl →
      runOps sa w1 program env = runOps sa w2 program env := by
  refine ⟨by decide, ?_⟩
  intro sa w1 w2 env hcsv
  apply run_world_agree
  intro u hu
  have : u = nhanesUrl := by
    have hurls : program.flatMap urlsOf = [nhanesUrl] := by decide
    rw [hurls] at hu
    simpa using hu
  rw [this, hcsv]

/-- C8: the only URL the program ever reads is the hard-coded NHANES
2015-2016 merged CSV URL: syntactically it is the program's only read,
and semantically every read event of any run is of that URL. -/
theorem C8_single_source :
    (program.flatMap urlsOf) = [nhanesUrl] ∧
    ∀ (sa : ℚ → ℚ) (w : World) (env : Env) (u : String),
      Event.readEv u ∈ (runOps sa w program env).2 → u = nhanesUrl := by
  refine ⟨by decide, ?_⟩
  intro sa w env u hu
  have := reads_run sa w program env u hu
  rw [show program.flatMap urlsOf = [nhanesUrl] from by decide] at this
  simpa using this

/-- C9: the program has no persistent storage effects: no statement
writes syntactically, no run ever emits a write event, and a successful
run leaves the external file system exactly as it found it. -/
theorem C9_no_storage :
    (program.flatMap writesOf) = [] ∧
    (∀ (sa : ℚ → ℚ) (w : World) (env : Env) (q : String),
      Event.writeEv q ∉ (runOps sa w program env).2) ∧
    ∀ (sa : ℚ → ℚ) (w : World) (env env' : Env) (t : List Event),
      runOps sa w program env = (.ok env', t) → env'.fs = env.fs := by
  refine ⟨by decide, ?_, ?_⟩
  · intro sa w env q hq
    have := writes_run sa w program env q hq
    rw [show program.flatMap writesOf = [] from by decide] at this
    simp at this
  · intro sa w env env' t h
    exact fs_run sa w program env env' t (by decide) h

/-! ### Row cleanliness lemmas -/

theorem lookupCol_mem {c : String} {r : Row} {v : Value}
    (h : lookupCol c r = some v) : ∃ p, p ∈ r ∧ p.2 = v := by
  rcases hf : r.find? (fun p => p.1 == c) with _ | p
  · rw [lookupCol, hf] at h; cases h
  · rw [lookupCol, hf] at h
    injection h with h
    exact ⟨p, List.mem_of_find?_eq_some hf, h⟩

theorem mem_colVals_of_lookup {c : String} {r : Row} {v : Value}
    {df : DataFrame} (hr : r ∈ df) (h : lookupCol c r = some v) :
    v ∈ colVals c df :=
  List.mem_filterMap.mpr ⟨r, hr, h⟩

theorem clean_df0 (csv : DataFrame) :
    ∀ r ∈ df0 csv, ∀ p ∈ r, p.2 ≠ Value.na := by
  intro r hr p hp
  have := ((mem_dropna r (selectCols vars csv)).mp hr).2
  have := List.all_eq_true.mp this p hp
  simpa using this

theorem clean_addCol {n : String} {f : Row → Value} {D : DataFrame}
    (hD : ∀ r ∈ D, ∀ p ∈ r, p.2 ≠ Value.na)
    (hf : ∀ r ∈ D, f r ≠ Value.na) :
    ∀ r' ∈ addCol n f D, ∀ p ∈ r', p.2 ≠ Value.na := by
  intro r' hr' p hp
  obtain ⟨r, hrD, rfl⟩ := (mem_addCol r' n f D).mp hr'
  rcases List.mem_append.mp hp with hp | hp
  · exact hD r hrD p hp
  · have : p = (n, f r) := by simpa using hp
    rw [this]
    exact hf r hrD

theorem clean_delCol {n : String} {D : DataFrame}
    (hD : ∀ r ∈ D, ∀ p ∈ r, p.2 ≠ Value.na) :
    ∀ r' ∈ delCol n D, ∀ p ∈ r', p.2 ≠ Value.na := by
  intro r' hr' p hp
  obtain ⟨r, hrD, rfl⟩ := (mem_delCol r' n D).mp hr'
  exact hD r hrD p (List.mem_filter.mp hp).1

theorem genderRepl_ne_na {r : Row}
    (hp : (lookupCol "RIAGENDR" r).isSome = true)
    (hcl : ∀ p ∈ r, p.2 ≠ Value.na) : genderRepl r ≠ Value.na := by
  rcases hv : lookupCol "RIAGENDR" r with _ | v
  · rw [hv] at hp; cases hp
  · obtain ⟨p, hpr, hp2⟩ := lookupCol_mem hv
    have hvna : v ≠ Value.na := hp2 ▸ hcl p hpr
    rcases v with q | s | _
    · simp only [genderRepl, hv]
      split_ifs <;> simp
    · simp [genderRepl, hv]
    · exact absurd rfl hvna

theorem zRowFun_ne_na {r : Row} {m s : ℚ}
    (hp : (lookupCol "RIDAGEYR" r).isSome = true)
    (hcl : ∀ p ∈ r, p.2 ≠ Value.na)
    (hstr : ∀ v, lookupCol "RIDAGEYR" r = some v → isStr v = false) :
    zRowFun m s r ≠ Value.na := by
  rcases hv : lookupCol "RIDAGEYR" r with _ | v
  · rw [hv] at hp; cases hp
  · obtain ⟨p, hpr, hp2⟩ := lookupCol_mem hv
    have hvna : v ≠ Value.na := hp2 ▸ hcl p hpr
    rcases v with q | s' | _
    · simp [zRowFun, hv]
    · exact absurd (hstr _ hv) (by simp [isStr])
    · exact absurd rfl hvna

theorem cenRowFun_ne_na {r : Row} {m : ℚ}
    (hp : (lookupCol "RIDAGEYR" r).isSome = true)
    (hcl : ∀ p ∈ r, p.2 ≠ Value.na)
    (hstr : ∀ v, lookupCol "RIDAGEYR" r = some v → isStr v = false) :
    cenRowFun m r ≠ Value.na := by
  rcases hv : lookupCol "RIDAGEYR" r with _ | v
  · rw [hv] at hp; cases hp
  · obtain ⟨p, hpr, hp2⟩ := lookupCol_mem hv
    have hvna : v ≠ Value.na := hp2 ▸ hcl p hpr
    rcases v with q | s' | _
    · simp [cenRowFun, hv]
    · exact absurd (hstr _ hv) (by simp [isStr])
    · exact absurd rfl hvna

/-- C5: in any successful run, every dataframe handed to a model fit is
fully observed: each of its rows carries all seven key columns, and no
cell of any row — the original columns and the derived columns
`RIAGENDRx`, `RIDAGEYR_z`, `RIDAGEYR_cen` alike — is missing. -/
theorem C5_no_missing (sa : ℚ → ℚ) (w : World) (env env' : Env)
    (tr : List Event) (h : runOps sa w program env = (.ok env', tr)) :
    ∀ m f d, Event.fitEv m f d ∈ tr → ∀ r ∈ d,
      (∀ c ∈ vars, (lookupCol c r).isSome = true) ∧
      (∀ p ∈ r, p.2 ≠ Value.na) := by
  obtain ⟨csv, hw, hvars, hstr, hda, hfs, hfit⟩ := run_program_ok h
  have hp0 : ∀ c ∈ vars, hasCol c (df0 csv) = true := fun c hc =>
    hasCol_dropna_select c vars csv hc (hvars c hc)
  have hp1 : ∀ c ∈ vars, hasCol c (d1 csv) = true := fun c hc =>
    hasCol_addCol_mono c "RIAGENDRx" genderRepl (df0 csv) (hp0 c hc)
  have hp2 : ∀ c ∈ vars, hasCol c (d2 sa csv) = true := fun c hc =>
    hasCol_addCol_mono c "RIDAGEYR_z" (zRowFun (ageM1 csv) (ageS1 sa csv))
      (d1 csv) (hp1 c hc)
  have hzne : ∀ c ∈ vars, "RIDAGEYR_z" ≠ c := by decide
  have hp3 : ∀ c ∈ vars, hasCol c (d3 sa csv) = true := fun c hc =>
    hasCol_delCol_ne c "RIDAGEYR_z" (d2 sa csv) (hzne c hc) (hp2 c hc)
  have hp4 : ∀ c ∈ vars, hasCol c (d4 sa csv) = true := fun c hc =>
    hasCol_addCol_mono c "RIDAGEYR_cen" (cenRowFun (ageM3 sa csv))
      (d3 sa csv) (hp3 c hc)
  have hstr1 : ∀ v ∈ colVals "RIDAGEYR" (d1 csv), isStr v = false := by
    intro v hv
    rcases hb : isStr v with _ | _
    · rfl
    · exact absurd (List.any_eq_true.mpr ⟨v, hv, hb⟩) (by rw [hstr]; simp)
  have hcl0 : ∀ r ∈ df0 csv, ∀ p ∈ r, p.2 ≠ Value.na := clean_df0 csv
  have hcl1 : ∀ r ∈ d1 csv, ∀ p ∈ r, p.2 ≠ Value.na := by
    refine clean_addCol hcl0 ?_
    intro r hr
    exact genderRepl_ne_na
      ((hasCol_iff _ _).mp (hp0 _ (by decide)) r hr) (hcl0 r hr)
  have hcl2 : ∀ r ∈ d2 sa csv, ∀ p ∈ r, p.2 ≠ Value.na := by
    refine clean_addCol hcl1 ?_
    intro r hr
    exact zRowFun_ne_na ((hasCol_iff _ _).mp (hp1 _ (by decide)) r hr)
      (hcl1 r hr)
      (fun v hv => hstr1 v (mem_colVals_of_lookup hr hv))
  have hcl3 : ∀ r ∈ d3 sa csv, ∀ p ∈ r, p.2 ≠ Value.na := clean_delCol hcl2
  have hstr3v : ∀ v ∈ colVals "RIDAGEYR" (d3 sa csv), isStr v = false := by
    rw [colVals_age_d3 sa csv]
    exact hstr1
  have hcl4 : ∀ r ∈ d4 sa csv, ∀ p ∈ r, p.2 ≠ Value.na := by
    refine clean_addCol hcl3 ?_
    intro r hr
    exact cenRowFun_ne_na ((hasCol_iff _ _).mp (hp3 _ (by decide)) r hr)
      (hcl3 r hr)
      (fun v hv => hstr3v v (mem_colVals_of_lookup hr hv))
  intro m f d hm r hr
  rcases hfit m f d hm with rfl | rfl | rfl | rfl
  · exact ⟨fun c hc => (hasCol_iff c _).mp (hp0 c hc) r hr, hcl0 r hr⟩
  · exact ⟨fun c hc => (hasCol_iff c _).mp (hp1 c hc) r hr, hcl1 r hr⟩
  · exact ⟨fun c hc => (hasCol_iff c _).mp (hp2 c hc) r hr, hcl2 r hr⟩
  · exact ⟨fun c hc => (hasCol_iff c _).mp (hp4 c hc) r hr, hcl4 r hr⟩

/-- C10: in any successful run on a CSV, the final dataframe is exactly
the initial cleaned dataframe with the derived columns `RIAGENDRx` and
`RIDAGEYR_cen` added (the column `RIDAGEYR_z` having been added and then
deleted), and the values of every one of the seven original measurement
columns are unchanged from the moment of the up-front `dropna`. -/
theorem C10_originals_unchanged (sa : ℚ → ℚ) (w : World) (env env' : Env)
    (tr : List Event) (csv : DataFrame) (hw : w nhanesUrl = some csv)
    (h : runOps sa w program env = (.ok env', tr)) :
    env'.da = d4 sa csv ∧
    ∀ c ∈ vars, colVals c env'.da = colVals c (df0 csv) := by
  obtain ⟨csv', hw', hvars, hstr, hda, hfs, hfit⟩ := run_program_ok h
  have : csv = csv' := Option.some.inj (hw.symm.trans hw')
  subst this
  refine ⟨hda, ?_⟩
  intro c hc
  rw [hda]
  have hcen : "RIDAGEYR_cen" ≠ c :=
    (by decide : ∀ x ∈ vars, "RIDAGEYR_cen" ≠ x) c hc
  have hz : "RIDAGEYR_z" ≠ c :=
    (by decide : ∀ x ∈ vars, "RIDAGEYR_z" ≠ x) c hc
  have hgx : "RIAGENDRx" ≠ c :=
    (by decide : ∀ x ∈ vars, "RIAGENDRx" ≠ x) c hc
  show colVals c (addCol "RIDAGEYR_cen" (cenRowFun (ageM3 sa csv))
    (d3 sa csv)) = colVals c (df0 csv)
  rw [colVals_addCol_ne c "RIDAGEYR_cen" (cenRowFun (ageM3 sa csv)) hcen
    (d3 sa csv)]
  show colVals c (delCol "RIDAGEYR_z" (d2 sa csv)) = colVals c (df0 csv)
  rw [colVals_delCol_ne c "RIDAGEYR_z" hz (d2 sa csv)]
  show colVals c (addCol "RIDAGEYR_z" (zRowFun (ageM1 csv) (ageS1 sa csv))
    (d1 csv)) = colVals c (df0 csv)
  rw [colVals_addCol_ne c "RIDAGEYR_z" (zRowFun (ageM1 csv) (ageS1 sa csv))
    hz (d1 csv)]
  show colVals c (addCol "RIAGENDRx" genderRepl (df0 csv)) = colVals c (df0 csv)
  rw [colVals_addCol_ne c "RIAGENDRx" genderRepl hgx (df0 csv)]

theorem C7_witness :
    0 < (2:ℚ) ∧ (2:ℚ) ^ 2 = svar [0, 2, 4] ∧
    (mean (cenCol [0, 2, 4]) = 0 ∧ mean (zCol [0, 2, 4] 2) = 0 ∧
      svar (zCol [0, 2, 4] 2) = 1 ∧
      ∀ t : ℚ, 0 ≤ t → t ^ 2 = svar (zCol [0, 2, 4] 2) → t = 1) := by
  have h1 : (0:ℚ) < 2 := by norm_num
  have h2 : (2:ℚ) ^ 2 = svar [0, 2, 4] := by
    norm_num [svar, mean]
  exact ⟨h1, h2, C7_centering_scaling [0, 2, 4] 2 h1 h2⟩

theorem C4_witness :
    runOps sa0 wnone program env0 =
      (.error .readError, [] ++ [.readEv nhanesUrl]) :=
  C4_no_error_handling.2 sa0 wnone env0 env0 pre0 (.readCsv nhanesUrl) post0
    [] [.readEv nhanesUrl] .readError rfl rfl rfl

theorem C5_witness :
    (∀ c ∈ vars, (lookupCol c row0).isSome = true) ∧
    (∀ p ∈ row0, p.2 ≠ Value.na) :=
  C5_no_missing sa0 w0 env0 envEnd ((runOps sa0 w0 program env0).2) rfl
    Method.ols f1 (df0 csv0) (by decide) row0 (by decide)

theorem C6_witness :
    runOps sa0 w0 program env0 = runOps sa0 w0' program env0 :=
  C6_deterministic.2 sa0 w0 w0' env0 rfl

theorem C8_witness : nhanesUrl = nhanesUrl :=
  C8_single_source.2 sa0 w0 env0 nhanesUrl (by decide)

theorem C9_witness : envEnd.fs = env0.fs :=
  C9_no_storage.2.2 sa0 w0 env0 envEnd ((runOps sa0 w0 program env0).2) rfl

theorem C10_witness :
    envEnd.da = d4 sa0 csv0 ∧
    ∀ c ∈ vars, colVals c envEnd.da = colVals c (df0 csv0) :=
  C10_originals_unchanged sa0 w0 env0 envEnd ((runOps sa0 w0 program env0).2)
    csv0 rfl rfl

end NhanesOls
